import Mathlib

/-!
# BBK-Warnmeldungen: a verification development of `warnmeldungen.go`

The program fetches the warning feed, decodes it into `Warnmeldung` values and
reconciles them against a file based key-value store (golang-scribble),
printing one line per warning.

Go values are embedded as follows.
* A function returning `(value, error)` returns a pair whose second component
  is `Option Error` (`none` is the nil error).
* A slice is `Option (List α)`: `none` is the nil slice.
* `panic` is the exit status `Exit.panic` of a run; nothing is executed after it.
* Standard output is the list of the `fmt.Println` calls made (`Report`), each
  with its text (`Report.text`).
* What `main` obtains from outside the repository is an explicit parameter:
  the store as found, the failures its calls meet, the answer of the network
  and the grammar layer of `encoding/json` (`World`, `Faults`). The results hold
  for every value of these parameters.
* The library functions the program calls are embedded with the behaviour the
  program relies on: `scribble.Driver` as a key-value store, `ioutil.ReadAll`,
  and `json.Unmarshal` on a parsed document, for the types of this program.
-/

set_option linter.dupNamespace false
set_option maxRecDepth 4000

namespace Warnmeldungen

/-! ## Constants and data model (`warnmeldungen.go`, lines 18-64) -/

def USER_AGENT : String :=
  "Mozilla/5.0 (Windows NT 10.0; WOW64) AppleWebKit/537.36 (KHTML, like Gecko) Chrome/65.0.3325.181 Safari/537.36"

def ACCEPT : String :=
  "text/html,application/xhtml+xml,application/xml;q=0.9,image/webp,*/*;q=0.8"

def ACCEPT_LANG : String := "en-US,en;q=0.8"

def DBNAME : String := "Meldungen"

/-- A Go slice: `none` is the nil slice, `some xs` a non-nil slice holding `xs`. -/
abbrev Slice (α : Type) := Option (List α)

/-- The elements a `for ... range` loop visits: none for the nil slice. -/
def Slice.elems {α : Type} (s : Slice α) : List α := s.getD []

@[ext]
structure GeoCode where
  ValueName : String
deriving DecidableEq, Repr

@[ext]
structure Parameter where
  ValueName : String
  Value : String
deriving DecidableEq, Repr

@[ext]
structure Area where
  AreaDesc : String
  Geocode : Slice GeoCode
deriving DecidableEq, Repr

@[ext]
structure Info where
  Severity : String
  Urgency : String
  Description : String
  Headline : String
  Event : String
  Certainty : String
  Category : Slice String
  Parameter : Slice Parameter
  Area : Slice Area
deriving DecidableEq, Repr

@[ext]
structure Warnmeldung where
  Identifier : String
  MsgType : String
  Sender : String
  Scope : String
  Sent : String
  Status : String
  Code : Slice String
  Informationen : Slice Info
deriving DecidableEq, Repr

/-- The zero value of `GeoCode`. -/
def GeoCode.zero : GeoCode := ⟨""⟩
/-- The zero value of `Parameter`. -/
def Parameter.zero : Parameter := ⟨"", ""⟩
/-- The zero value of `Area`. -/
def Area.zero : Area := ⟨"", none⟩
/-- The zero value of `Info`. -/
def Info.zero : Info := ⟨"", "", "", "", "", "", none, none, none⟩
/-- The zero value of `Warnmeldung` (`var geleseneMeldung Warnmeldung`). -/
def Warnmeldung.zero : Warnmeldung := ⟨"", "", "", "", "", "", none, none⟩

/-! ## Errors -/

/-- Go `error` values met by the program. -/
inductive Error
  /-- The value of `errors.New(s)`. -/
  | errorString (s : String)
  /-- An error value handed over by a collaborator (net/url, net/http, the
  operating system, scribble, the JSON scanner), with its message. -/
  | external (msg : String)
  /-- The `*json.UnmarshalTypeError` with the fields `Value` (the kind of the
  JSON value met), `Type` (the Go type expected), `Struct` and `Field` (the
  struct and the field the value was to be stored in; both empty outside a
  struct). -/
  | unmarshalType (Value : String) (GoType : String) (Struct : String) (Field : String)
deriving DecidableEq, Repr

/-- The method `Error()` of an error value. -/
def Error.Error : Error → String
  | .errorString s => s
  | .external msg => msg
  | .unmarshalType value goType struct field =>
      if struct = "" ∧ field = "" then
        "json: cannot unmarshal " ++ value ++ " into Go value of type " ++ goType
      else
        "json: cannot unmarshal " ++ value ++ " into Go struct field " ++ struct ++ "." ++ field
          ++ " of type " ++ goType

/-- The Go idiom `if err != nil { panic(err) }` (lines 154-158): `some e` is the
panic value, `none` means control returns to the caller. -/
def HandleError (err : Option Error) : Option Error :=
  match err with
  | some e => some e
  | none => none

/-! ## Rendering (`prettyPrint`, lines 149-152) -/

/-- The hexadecimal digit of a number below 16, as `encoding/json` writes it. -/
def hexDigit (n : Nat) : Char :=
  "0123456789abcdef".toList.getD n (Char.ofNat 48)

/-- The JSON text of one character inside a string literal, as written by
`encoding/json` with HTML escaping on (the default of `MarshalIndent`):
quotation mark and backslash after a backslash, the short escapes of
backspace, form feed, line feed, carriage return and tab, `\u00XX` for the
other control characters and for `<`, `>` and `&`, `\u2028` and `\u2029` for
the line and paragraph separators, and every other character as it is.
(Releases before Go 1.22 write backspace and form feed as `\u0008` and
`\u000c`.) -/
def escapeRune (c : Char) : List Char :=
  if c.toNat = 34 ∨ c.toNat = 92 then [Char.ofNat 92, c]
  else if c.toNat = 8 then [Char.ofNat 92, Char.ofNat 98]
  else if c.toNat = 12 then [Char.ofNat 92, Char.ofNat 102]
  else if c.toNat = 10 then [Char.ofNat 92, Char.ofNat 110]
  else if c.toNat = 13 then [Char.ofNat 92, Char.ofNat 114]
  else if c.toNat = 9 then [Char.ofNat 92, Char.ofNat 116]
  else if c.toNat < 32 ∨ c.toNat = 60 ∨ c.toNat = 62 ∨ c.toNat = 38 then
    [Char.ofNat 92, Char.ofNat 117, Char.ofNat 48, Char.ofNat 48,
      hexDigit (c.toNat / 16), hexDigit (c.toNat % 16)]
  else if c.toNat = 8232 then
    [Char.ofNat 92, Char.ofNat 117, Char.ofNat 50, Char.ofNat 48, Char.ofNat 50, Char.ofNat 56]
  else if c.toNat = 8233 then
    [Char.ofNat 92, Char.ofNat 117, Char.ofNat 50, Char.ofNat 48, Char.ofNat 50, Char.ofNat 57]
  else [c]

/-- The JSON string literal of a Go string. -/
def quote (s : String) : String :=
  String.mk ([Char.ofNat 34] ++ (s.toList.map escapeRune).flatten ++ [Char.ofNat 34])

/-- A line break followed by `n` tabs (`MarshalIndent` with prefix `""` and
indent `"\t"`). -/
def newline (n : Nat) : String := "\n" ++ String.mk (List.replicate n (Char.ofNat 9))

/-- The indented text of a slice at nesting depth `n`. -/
def encodeSlice {α : Type} (enc : Nat → α → String) (n : Nat) : Slice α → String
  | none => "null"
  | some [] => "[]"
  | some (x :: xs) =>
      "[" ++ newline (n + 1)
        ++ ("," ++ newline (n + 1)).intercalate ((x :: xs).map (enc (n + 1)))
        ++ newline n ++ "]"

/-- The indented text of a struct at nesting depth `n`, from its members'
names and texts. -/
def encodeStruct (n : Nat) (members : List (String × String)) : String :=
  "\x7b" ++ newline (n + 1)
    ++ ("," ++ newline (n + 1)).intercalate (members.map fun m => quote m.1 ++ ": " ++ m.2)
    ++ newline n ++ "\x7d"

def encodeString (_ : Nat) (s : String) : String := quote s

def encodeGeoCode (n : Nat) (g : GeoCode) : String :=
  encodeStruct n [("valueName", encodeString (n + 1) g.ValueName)]

def encodeParameter (n : Nat) (p : Parameter) : String :=
  encodeStruct n [("valueName", encodeString (n + 1) p.ValueName),
    ("value", encodeString (n + 1) p.Value)]

def encodeArea (n : Nat) (a : Area) : String :=
  encodeStruct n [("areaDesc", encodeString (n + 1) a.AreaDesc),
    ("geocode", encodeSlice encodeGeoCode (n + 1) a.Geocode)]

def encodeInfo (n : Nat) (i : Info) : String :=
  encodeStruct n [("severity", encodeString (n + 1) i.Severity),
    ("urgency", encodeString (n + 1) i.Urgency),
    ("description", encodeString (n + 1) i.Description),
    ("headline", encodeString (n + 1) i.Headline),
    ("event", encodeString (n + 1) i.Event),
    ("certainty", encodeString (n + 1) i.Certainty),
    ("category", encodeSlice encodeString (n + 1) i.Category),
    ("parameter", encodeSlice encodeParameter (n + 1) i.Parameter),
    ("area", encodeSlice encodeArea (n + 1) i.Area)]

def encodeWarnmeldung (n : Nat) (w : Warnmeldung) : String :=
  encodeStruct n [("identifier", encodeString (n + 1) w.Identifier),
    ("msgType", encodeString (n + 1) w.MsgType),
    ("sender", encodeString (n + 1) w.Sender),
    ("scope", encodeString (n + 1) w.Scope),
    ("sent", encodeString (n + 1) w.Sent),
    ("status", encodeString (n + 1) w.Status),
    ("code", encodeSlice encodeString (n + 1) w.Code),
    ("info", encodeSlice encodeInfo (n + 1) w.Informationen)]

/-- The function `prettyPrint` applied to a `Warnmeldung`:
`json.MarshalIndent(i, "", "\t")` as a string. -/
def prettyPrint (i : Warnmeldung) : String := encodeWarnmeldung 0 i

/-! ### Reading a rendering back

These definitions are not part of the program. They serve to state that the
rendering loses nothing: a text is read back in one way only. -/

/-- The number a hexadecimal digit stands for. -/
def hexValue (c : Char) : Nat :=
  if 48 ≤ c.toNat ∧ c.toNat ≤ 57 then c.toNat - 48
  else if 97 ≤ c.toNat ∧ c.toNat ≤ 102 then c.toNat - 87
  else 0

/-- Reading one character of a string literal back from its JSON text: the
character and the rest of the text; nothing at the closing quotation mark. -/
def unescapeRune : List Char → Option (Char × List Char)
  | [] => none
  | c :: rest =>
    if c.toNat = 34 then none
    else if c.toNat = 92 then
      match rest with
      | [] => none
      | e :: rest =>
        if e.toNat = 117 then
          match rest with
          | a :: b :: h :: l :: rest =>
            some (Char.ofNat (((hexValue a * 16 + hexValue b) * 16 + hexValue h) * 16 + hexValue l),
              rest)
          | _ => none
        else if e.toNat = 98 then some (Char.ofNat 8, rest)
        else if e.toNat = 102 then some (Char.ofNat 12, rest)
        else if e.toNat = 110 then some (Char.ofNat 10, rest)
        else if e.toNat = 114 then some (Char.ofNat 13, rest)
        else if e.toNat = 116 then some (Char.ofNat 9, rest)
        else some (e, rest)
    else some (c, rest)

/-- The text of a value, followed by anything, can be read in one way only: it
determines the value and where its text ends. -/
def PrefixFree {α : Type} (enc : α → String) : Prop :=
  ∀ (x y : α) (r s : String), enc x ++ r = enc y ++ s → x = y ∧ r = s

/-- The text a struct value gives for one of its fields, followed by anything,
determines that text and where it ends. -/
def SelfDelimiting {σ : Type} (f : σ → String) : Prop :=
  ∀ (x y : σ) (r s : String), f x ++ r = f y ++ s → f x = f y ∧ r = s

/-- The text written by `fmt.Println` for string operands: the operands
separated by blanks, and a line break. -/
def Println (operands : List String) : String := " ".intercalate operands ++ "\n"

/-- One call of `fmt.Println` made by `main`. -/
inductive Report
  /-- Line 72: `fmt.Println("Could not get data due to error", err.Error())`. -/
  | fehler (err : Error)
  /-- Line 84: `fmt.Println("Neue Meldung:\n", prettyPrint(meldung))`. -/
  | neu (meldung : Warnmeldung)
  /-- Line 86: `fmt.Println("Alte Meldung gefunden:", meldung.Identifier)`. -/
  | alt (identifier : String)
deriving DecidableEq, Repr

/-- The text a report puts on standard output. -/
def Report.text : Report → String
  | .fehler err => Println ["Could not get data due to error", err.Error]
  | .neu meldung => Println ["Neue Meldung:\n", prettyPrint meldung]
  | .alt identifier => Println ["Alte Meldung gefunden:", identifier]

/-- The identifier a new/known report is about. -/
def Report.identifier : Report → Option String
  | .fehler _ => none
  | .neu meldung => some meldung.Identifier
  | .alt identifier => some identifier

/-- Whether a report is the new-report ("Neue Meldung") of an identifier. -/
def Report.isNeu (id : String) : Report → Bool
  | .neu meldung => meldung.Identifier == id
  | _ => false

/-- Whether a report is a new-report ("Neue Meldung"). -/
def Report.isNeuMeldung : Report → Bool
  | .neu _ => true
  | _ => false

/-! ## The store (`scribble.Driver`) -/

/-- Modelled from the spec: the key-value persistence collaborator
(golang-scribble, not part of the repository) with the contract of the spec,
`read(collection, key) -> record | not-found` and
`write(collection, key, record) -> ok | error`. The state is the directory and
one record per (collection, resource); keys are compared as strings. -/
structure Driver where
  dir : String
  files : List ((String × String) × Warnmeldung)
deriving DecidableEq, Repr

/-- The record stored under a resource of a collection, if any. -/
def Driver.record (d : Driver) (collection resource : String) : Option Warnmeldung :=
  d.files.lookup (collection, resource)

/-- Modelled from the spec: the method `Read(collection, resource, &v)`, the
value left in `v` and the error. `fault` is the failure this call meets, if any
(the operating system refuses the read, the file cannot be decoded); without
one the call fails exactly when there is no record. -/
def Driver.Read (d : Driver) (fault : Option Error) (collection resource : String)
    (v : Warnmeldung) : Warnmeldung × Option Error :=
  match fault with
  | some e => (v, some e)
  | none =>
    match d.record collection resource with
    | some w => (w, none)
    | none => (v, some (.external ("stat " ++ d.dir ++ "/" ++ collection ++ "/" ++ resource
        ++ ": no such file or directory")))

/-- Modelled from the spec: the method `Write(collection, resource, v)`, the
store afterwards and the error. `fault` is the failure this call meets, if any;
a failed write leaves the store as it was (scribble writes a temporary file and
renames it), a successful one makes `v` the record of the resource and leaves
every other record as it was. -/
def Driver.Write (d : Driver) (fault : Option Error) (collection resource : String)
    (v : Warnmeldung) : Driver × Option Error :=
  match fault with
  | some e => (d, some e)
  | none =>
    ({ d with files := ((collection, resource), v)
        :: d.files.filter (fun f => f.1 != (collection, resource)) }, none)

/-- The failures of the store calls of one run: `read i` and `write i` are the
failures met by the `Read` and the `Write` of the loop iteration with index `i`
(`none`: the call meets no failure). Every behaviour of the store, also one
that depends on the key or on earlier calls, is the behaviour under some value
of this parameter. -/
structure Faults where
  read : Nat → Option Error
  write : Nat → Option Error

/-- A store call made by `main`. -/
inductive Op
  | read (collection resource : String)
  | write (collection resource : String) (v : Warnmeldung)
deriving DecidableEq, Repr

def Op.isRead : Op → Bool
  | .read _ _ => true
  | .write _ _ _ => false

def Op.isWrite : Op → Bool
  | .read _ _ => false
  | .write _ _ _ => true

/-- How a run of `main` ends. -/
inductive Exit
  | normal
  | panic (err : Error)
deriving DecidableEq, Repr

/-- The observable outcome of (a part of) a run: the store, the reports
printed, the store calls made, and how it ended. -/
structure Run where
  DB : Driver
  out : List Report
  ops : List Op
  exit : Exit
deriving DecidableEq, Repr

/-- The reports and store calls `out`, `ops` happened before the run `r`. -/
def Run.after (out : List Report) (ops : List Op) (r : Run) : Run :=
  { r with out := out ++ r.out, ops := ops ++ r.ops }

/-! ## The reconcile loop (`main`, lines 75-88) -/

/-- The body of the loop (lines 77-87) for one `meldung`, with the failures
`rf`, `wf` its `Read` and `Write` meet. -/
def iteration (rf wf : Option Error) (DB : Driver) (meldung : Warnmeldung) : Run :=
  let geleseneMeldung := Warnmeldung.zero
  match (DB.Read rf DBNAME meldung.Identifier geleseneMeldung).2 with
  | some _ =>
    let w := DB.Write wf DBNAME meldung.Identifier meldung
    match HandleError w.2 with
    | some e =>
      { DB := w.1, out := [],
        ops := [.read DBNAME meldung.Identifier, .write DBNAME meldung.Identifier meldung],
        exit := .panic e }
    | none =>
      { DB := w.1, out := [.neu meldung],
        ops := [.read DBNAME meldung.Identifier, .write DBNAME meldung.Identifier meldung],
        exit := .normal }
  | none =>
    { DB := DB, out := [.alt meldung.Identifier],
      ops := [.read DBNAME meldung.Identifier], exit := .normal }

/-- The loop `for _, meldung := range warnmeldungen` (lines 75-88), started at
the iteration with index `i`. -/
def reconcile (F : Faults) : Nat → Driver → List Warnmeldung → Run
  | _, DB, [] => { DB := DB, out := [], ops := [], exit := .normal }
  | i, DB, meldung :: rest =>
    let s := iteration (F.read i) (F.write i) DB meldung
    match s.exit with
    | .panic e => { s with exit := .panic e }
    | .normal => (reconcile F (i + 1) s.DB rest).after s.out s.ops

/-! ## The fetcher (`getJSON`, lines 110-147) -/

/-- A byte, as a number below 256. -/
abbrev Byte := Nat

/-- The body of a response as a stream: the bytes the server sends and, if the
transfer breaks, the number of bytes delivered before the read error. -/
structure Body where
  content : List Byte
  failure : Option (Nat × Error)
deriving DecidableEq, Repr

/-- The function `ioutil.ReadAll`: the bytes read until the end of the stream or
until the first error, and that error. -/
def ReadAll (b : Body) : List Byte × Option Error :=
  match b.failure with
  | none => (b.content, none)
  | some (n, e) => (b.content.take n, some e)

structure Response where
  Status : String
  StatusCode : Int
  Body : Body
deriving DecidableEq, Repr

structure Request where
  Method : String
  URL : String
  Header : List (String × String)
deriving DecidableEq, Repr

/-- The method `req.Header.Add(key, value)`: the value is appended to the
values already given for the header. -/
def Request.Add (req : Request) (key value : String) : Request :=
  { req with Header := req.Header ++ [(key, value)] }

/-- The settings of `http.Transport` made in lines 114-120 (durations in
seconds). -/
structure Transport where
  MaxIdleConns : Nat
  IdleConnTimeout : Nat
  TLSHandshakeTimeout : Nat
  ExpectContinueTimeout : Nat
deriving DecidableEq, Repr

/-- The settings of `http.Client` made in lines 112-121. -/
structure Client where
  Timeout : Nat
  Transport : Transport
deriving DecidableEq, Repr

/-- A JSON value as `encoding/json` reads it from a grammatical document. The
members of an object are kept in document order. -/
inductive JSON
  | null
  | bool (b : Bool)
  | number (literal : String)
  | string (s : String)
  | array (elements : List JSON)
  | object (members : List (String × JSON))

/-- The surroundings of one run of the program: everything `main` obtains from
outside the repository. -/
structure World where
  /-- The store behind the directory "DB" as `scribble.New("DB", nil)` finds it. -/
  DB : Driver
  /-- The error of `scribble.New("DB", nil)`, if it fails. -/
  New : Option Error
  /-- The store call failures of the run. -/
  faults : Faults
  /-- The function `url.Parse` followed by `String()`. -/
  urlParse : String → Except Error String
  /-- The method `client.Do`: the network. -/
  Do : Client → Request → Except Error Response
  /-- The grammar layer of `json.Unmarshal`: a syntax error, or the value the
  document denotes. -/
  parseJSON : List Byte → Except Error JSON

/-- The function `http.NewRequest(method, url, nil)`. -/
def NewRequest (W : World) (method url : String) : Except Error Request :=
  match W.urlParse url with
  | .error err => .error err
  | .ok u => .ok { Method := method, URL := u, Header := [] }

/-- The client `getJSON` builds (lines 112-121). -/
def getJSON.client : Client :=
  { Timeout := 30
    Transport :=
      { MaxIdleConns := 200
        IdleConnTimeout := 90
        TLSHandshakeTimeout := 10
        ExpectContinueTimeout := 5 } }

/-- The headers `getJSON` adds to the request (lines 128-135). `hvals` lists
the entries of the map in the order the `range` loop visits them. -/
def getJSON.headers (req : Request) (hvals : Option (List (String × String))) : Request :=
  let req := req.Add "User-Agent" USER_AGENT
  let req := req.Add "Accept" ACCEPT
  let req := req.Add "Accept-Language" ACCEPT_LANG
  match hvals with
  | some kvs => kvs.foldl (fun r kv => r.Add kv.1 kv.2) req
  | none => req

/-- The function `getJSON` (lines 110-147). -/
def getJSON (W : World) (url : String) (hvals : Option (List (String × String))) :
    Slice Byte × Option Error :=
  match NewRequest W "GET" url with
  | .error err => (none, some err)
  | .ok req =>
    match W.Do getJSON.client (getJSON.headers req hvals) with
    | .error err => (none, some err)
    | .ok resp =>
      if resp.StatusCode < 200 ∨ resp.StatusCode ≥ 300 then
        (none, some (.errorString resp.Status))
      else
        let r := ReadAll resp.Body
        (some r.1, none)

/-! ## The decoder (`json.Unmarshal` into `[]Warnmeldung`, line 102) -/

/-- The word by which an `UnmarshalTypeError` names a JSON value. -/
def JSON.kind : JSON → String
  | .null => "null"
  | .bool _ => "bool"
  | .number _ => "number"
  | .string _ => "string"
  | .array _ => "array"
  | .object _ => "object"

/-- The representative of a character under simple case folding, for the
characters that fold to an ASCII letter: the lower and upper case letters, the
long s (U+017F) and the Kelvin sign (U+212A). -/
def foldRune (c : Char) : Char :=
  if 97 ≤ c.toNat ∧ c.toNat ≤ 122 then Char.ofNat (c.toNat - 32)
  else if c.toNat = 383 then Char.ofNat 83
  else if c.toNat = 8490 then Char.ofNat 75
  else c

/-- The case-insensitive comparison of a field name with an object key. It
agrees with the comparison of `encoding/json` whenever one side consists of
ASCII letters, as the names of this schema do. -/
def equalFold (name key : String) : Bool :=
  name.toList.map foldRune == key.toList.map foldRune

/-- The index of the first name with the property, if any. -/
def indexWhere (p : String → Bool) : List String → Option Nat
  | [] => none
  | n :: rest => if p n then some 0 else (indexWhere p rest).map (· + 1)

/-- The field an object key is decoded into: the field whose name is the key,
else the first field whose name equals the key up to case. -/
def findField (names : List String) (key : String) : Option Nat :=
  match indexWhere (fun n => n == key) names with
  | some i => some i
  | none => indexWhere (fun n => equalFold n key) names

/-- The first of two errors: the decoder keeps the first type error it meets
and goes on. -/
def firstError (e1 e2 : Option Error) : Option Error :=
  match e1 with
  | some e => some e
  | none => e2

/-- Where the decoder is inside the Go value: the struct type whose field is
being decoded and the JSON names of the fields on the way from the root. Both
are empty outside a struct. -/
structure ErrorContext where
  Struct : String
  FieldStack : List String
deriving DecidableEq, Repr

/-- The context at the start of `json.Unmarshal`. -/
def ErrorContext.root : ErrorContext := { Struct := "", FieldStack := [] }

/-- The `UnmarshalTypeError` for a JSON value of kind `value` met where the Go
type `goType` is expected, with the context added (the field path of recent
releases of `encoding/json`; older ones give the last name only). -/
def typeError (ctx : ErrorContext) (value goType : String) : Error :=
  .unmarshalType value goType ctx.Struct (".".intercalate ctx.FieldStack)

/-- Decoding a JSON value into a Go `string` that holds `cur`. -/
def decodeString (ctx : ErrorContext) (cur : String) (v : JSON) : String × Option Error :=
  match v with
  | .string s => (s, none)
  | .null => (cur, none)
  | .bool _ => (cur, some (typeError ctx "bool" "string"))
  | .number _ => (cur, some (typeError ctx "number" "string"))
  | .array _ => (cur, some (typeError ctx "array" "string"))
  | .object _ => (cur, some (typeError ctx "object" "string"))

/-- Decoding the elements of a JSON array from index `i` on. The decoder sets
the length of the slice to zero and appends, reusing the memory of the slice:
element `i` is decoded into the value the slice held at index `i`, and into a
zero value beyond its length. (A slice is not nil at this point only when the
object gives the same field twice; values kept beyond the length of a slice
that was shortened by an earlier occurrence are not tracked.) -/
def decodeElems {α : Type} (zero : α) (elem : α → JSON → α × Option Error) (cur : List α) :
    Nat → List JSON → List α × Option Error
  | _, [] => ([], none)
  | i, x :: xs =>
    let a := elem (cur.getD i zero) x
    let r := decodeElems zero elem cur (i + 1) xs
    (a.1 :: r.1, firstError a.2 r.2)

/-- Decoding a JSON value into a Go slice of type `goType` that holds `cur`. -/
def decodeSlice {α : Type} (ctx : ErrorContext) (goType : String) (zero : α)
    (elem : α → JSON → α × Option Error) (cur : Slice α) (v : JSON) :
    Slice α × Option Error :=
  match v with
  | .array xs =>
    let r := decodeElems zero elem cur.elems 0 xs
    (some r.1, r.2)
  | .null => (none, none)
  | .bool _ => (cur, some (typeError ctx "bool" goType))
  | .number _ => (cur, some (typeError ctx "number" goType))
  | .string _ => (cur, some (typeError ctx "string" goType))
  | .object _ => (cur, some (typeError ctx "object" goType))

/-- Decoding the members of a JSON object, in document order, into a struct of
the type named `struct` with the field names `names`; `set c s i v` decodes `v`
into field `i` of `s` in the context `c`. A key that matches no field is
skipped. -/
def decodeMembers {σ : Type} (struct : String) (names : List String)
    (set : ErrorContext → σ → Nat → JSON → σ × Option Error) (ctx : ErrorContext) :
    List (String × JSON) → σ → σ × Option Error
  | [], s => (s, none)
  | (key, v) :: rest, s =>
    match findField names key with
    | none => decodeMembers struct names set ctx rest s
    | some i =>
      let a := set { Struct := struct, FieldStack := ctx.FieldStack ++ [names.getD i ""] } s i v
      let r := decodeMembers struct names set ctx rest a.1
      (r.1, firstError a.2 r.2)

/-- Decoding a JSON value into a Go struct of type `goType`, named `struct`,
that holds `cur`. -/
def decodeStruct {σ : Type} (ctx : ErrorContext) (goType struct : String) (names : List String)
    (set : ErrorContext → σ → Nat → JSON → σ × Option Error) (cur : σ) (v : JSON) :
    σ × Option Error :=
  match v with
  | .object members => decodeMembers struct names set ctx members cur
  | .null => (cur, none)
  | .bool _ => (cur, some (typeError ctx "bool" goType))
  | .number _ => (cur, some (typeError ctx "number" goType))
  | .string _ => (cur, some (typeError ctx "string" goType))
  | .array _ => (cur, some (typeError ctx "array" goType))

/-- The elements of an array; none for any other value. -/
def JSON.elements : JSON → List JSON
  | .array xs => xs
  | _ => []

def JSON.isNull : JSON → Bool
  | .null => true
  | _ => false

def JSON.isArray : JSON → Bool
  | .array _ => true
  | _ => false

def JSON.isObject : JSON → Bool
  | .object _ => true
  | _ => false

/-- The JSON names of the fields of `GeoCode` (line 57). -/
def GeoCode.names : List String := ["valueName"]

def GeoCode.set (ctx : ErrorContext) (g : GeoCode) (field : Nat) (v : JSON) :
    GeoCode × Option Error :=
  match field with
  | 0 => let r := decodeString ctx g.ValueName v; ({ g with ValueName := r.1 }, r.2)
  | _ => (g, none)

def decodeGeoCode (ctx : ErrorContext) (cur : GeoCode) (v : JSON) : GeoCode × Option Error :=
  decodeStruct ctx "main.GeoCode" "GeoCode" GeoCode.names GeoCode.set cur v

/-- The JSON names of the fields of `Parameter` (lines 62-63). -/
def Parameter.names : List String := ["valueName", "value"]

def Parameter.set (ctx : ErrorContext) (p : Parameter) (field : Nat) (v : JSON) :
    Parameter × Option Error :=
  match field with
  | 0 => let r := decodeString ctx p.ValueName v; ({ p with ValueName := r.1 }, r.2)
  | 1 => let r := decodeString ctx p.Value v; ({ p with Value := r.1 }, r.2)
  | _ => (p, none)

def decodeParameter (ctx : ErrorContext) (cur : Parameter) (v : JSON) :
    Parameter × Option Error :=
  decodeStruct ctx "main.Parameter" "Parameter" Parameter.names Parameter.set cur v

/-- The JSON names of the fields of `Area` (lines 52-53). -/
def Area.names : List String := ["areaDesc", "geocode"]

def Area.set (ctx : ErrorContext) (a : Area) (field : Nat) (v : JSON) : Area × Option Error :=
  match field with
  | 0 => let r := decodeString ctx a.AreaDesc v; ({ a with AreaDesc := r.1 }, r.2)
  | 1 =>
    let r := decodeSlice ctx "[]main.GeoCode" GeoCode.zero (decodeGeoCode ctx) a.Geocode v
    ({ a with Geocode := r.1 }, r.2)
  | _ => (a, none)

def decodeArea (ctx : ErrorContext) (cur : Area) (v : JSON) : Area × Option Error :=
  decodeStruct ctx "main.Area" "Area" Area.names Area.set cur v

/-- The JSON names of the fields of `Info` (lines 39-47). -/
def Info.names : List String :=
  ["severity", "urgency", "description", "headline", "event", "certainty", "category",
    "parameter", "area"]

def Info.set (ctx : ErrorContext) (i : Info) (field : Nat) (v : JSON) : Info × Option Error :=
  match field with
  | 0 => let r := decodeString ctx i.Severity v; ({ i with Severity := r.1 }, r.2)
  | 1 => let r := decodeString ctx i.Urgency v; ({ i with Urgency := r.1 }, r.2)
  | 2 => let r := decodeString ctx i.Description v; ({ i with Description := r.1 }, r.2)
  | 3 => let r := decodeString ctx i.Headline v; ({ i with Headline := r.1 }, r.2)
  | 4 => let r := decodeString ctx i.Event v; ({ i with Event := r.1 }, r.2)
  | 5 => let r := decodeString ctx i.Certainty v; ({ i with Certainty := r.1 }, r.2)
  | 6 =>
    let r := decodeSlice ctx "[]string" "" (decodeString ctx) i.Category v
    ({ i with Category := r.1 }, r.2)
  | 7 =>
    let r := decodeSlice ctx "[]main.Parameter" Parameter.zero (decodeParameter ctx) i.Parameter v
    ({ i with Parameter := r.1 }, r.2)
  | 8 =>
    let r := decodeSlice ctx "[]main.Area" Area.zero (decodeArea ctx) i.Area v
    ({ i with Area := r.1 }, r.2)
  | _ => (i, none)

def decodeInfo (ctx : ErrorContext) (cur : Info) (v : JSON) : Info × Option Error :=
  decodeStruct ctx "main.Info" "Info" Info.names Info.set cur v

/-- The JSON names of the fields of `Warnmeldung` (lines 28-35). -/
def Warnmeldung.names : List String :=
  ["identifier", "msgType", "sender", "scope", "sent", "status", "code", "info"]

def Warnmeldung.set (ctx : ErrorContext) (w : Warnmeldung) (field : Nat) (v : JSON) :
    Warnmeldung × Option Error :=
  match field with
  | 0 => let r := decodeString ctx w.Identifier v; ({ w with Identifier := r.1 }, r.2)
  | 1 => let r := decodeString ctx w.MsgType v; ({ w with MsgType := r.1 }, r.2)
  | 2 => let r := decodeString ctx w.Sender v; ({ w with Sender := r.1 }, r.2)
  | 3 => let r := decodeString ctx w.Scope v; ({ w with Scope := r.1 }, r.2)
  | 4 => let r := decodeString ctx w.Sent v; ({ w with Sent := r.1 }, r.2)
  | 5 => let r := decodeString ctx w.Status v; ({ w with Status := r.1 }, r.2)
  | 6 =>
    let r := decodeSlice ctx "[]string" "" (decodeString ctx) w.Code v
    ({ w with Code := r.1 }, r.2)
  | 7 =>
    let r := decodeSlice ctx "[]main.Info" Info.zero (decodeInfo ctx) w.Informationen v
    ({ w with Informationen := r.1 }, r.2)
  | _ => (w, none)

def decodeWarnmeldung (ctx : ErrorContext) (cur : Warnmeldung) (v : JSON) :
    Warnmeldung × Option Error :=
  decodeStruct ctx "main.Warnmeldung" "Warnmeldung" Warnmeldung.names Warnmeldung.set cur v

/-- The call `json.Unmarshal(data, &v)` for `v` of type `[]Warnmeldung`: the
value of `v` afterwards and the error. A document with a syntax error leaves
`v` as it is; a type error is returned after the rest has been decoded. -/
def Unmarshal (W : World) (data : List Byte) (v : Slice Warnmeldung) :
    Slice Warnmeldung × Option Error :=
  match W.parseJSON data with
  | .error err => (v, some err)
  | .ok j =>
    decodeSlice ErrorContext.root "[]main.Warnmeldung" Warnmeldung.zero
      (decodeWarnmeldung ErrorContext.root) v j

/-! ## The schema of the feed, from the words of the spec

An object of the feed may omit any field of the schema and may carry further
members. These definitions state, independently of the decoder, which JSON
values are objects of the schema and which Go value each of them stands for: a
field that is given has the value given, a string field that is omitted is the
empty string, a list field that is omitted is the empty (nil) list. -/

def JSON.isString : JSON → Bool
  | .string _ => true
  | _ => false

/-- An array whose elements all have the property `ok`. -/
def okArray (ok : JSON → Bool) : JSON → Bool
  | .array xs => xs.all ok
  | _ => false

/-- The members of an object of the schema: a member named like a field has a
value of the shape of that field, every other member is an extra one, whose
name equals no field name even up to case, and no field is given twice. -/
def okMembers (names : List String) (okValue : String → JSON → Bool)
    (ms : List (String × JSON)) : Bool :=
  ms.all (fun m =>
      if names.contains m.1 then okValue m.1 m.2
      else names.all (fun n => !equalFold n m.1))
    && decide ((ms.map Prod.fst).filter (fun k => names.contains k)).Nodup

def okObject (names : List String) (okValue : String → JSON → Bool) : JSON → Bool
  | .object ms => okMembers names okValue ms
  | _ => false

/-- The shape of the value of a member of a `GeoCode` object. -/
def GeoCode.okValue (_ : String) (v : JSON) : Bool := v.isString

def isGeoCodeObject : JSON → Bool := okObject GeoCode.names GeoCode.okValue

/-- The shape of the value of a member of a `Parameter` object. -/
def Parameter.okValue (_ : String) (v : JSON) : Bool := v.isString

def isParameterObject : JSON → Bool := okObject Parameter.names Parameter.okValue

/-- The shape of the value of a member of an `Area` object: `geocode` is an
array of `GeoCode` objects, `areaDesc` a string. -/
def Area.okValue (name : String) (v : JSON) : Bool :=
  if name = "geocode" then okArray isGeoCodeObject v else v.isString

def isAreaObject : JSON → Bool := okObject Area.names Area.okValue

/-- The shape of the value of a member of an `Info` object: `category` is an
array of strings, `parameter` an array of `Parameter` objects, `area` an array
of `Area` objects, every other field a string. -/
def Info.okValue (name : String) (v : JSON) : Bool :=
  if name = "category" then okArray JSON.isString v
  else if name = "parameter" then okArray isParameterObject v
  else if name = "area" then okArray isAreaObject v
  else v.isString

def isInfoObject : JSON → Bool := okObject Info.names Info.okValue

/-- The shape of the value of a member of a warning object: `code` is an array
of strings, `info` an array of `Info` objects, every other field a string. -/
def Warnmeldung.okValue (name : String) (v : JSON) : Bool :=
  if name = "code" then okArray JSON.isString v
  else if name = "info" then okArray isInfoObject v
  else v.isString

/-- A warning object of the feed: every member named like a field of
`Warnmeldung` has the shape of that field; fields may be missing and extra
members (such as `polygon`) may be present. -/
def isWarnmeldungObject : JSON → Bool := okObject Warnmeldung.names Warnmeldung.okValue

/-- The string given for a field; the empty string if the field is omitted. -/
def specString (ms : List (String × JSON)) (name : String) : String :=
  match ms.lookup name with
  | some (.string s) => s
  | _ => ""

/-- The list given for a field, element by element; the nil list if the field
is omitted. -/
def specSlice {α : Type} (elem : JSON → α) (ms : List (String × JSON)) (name : String) :
    Slice α :=
  match ms.lookup name with
  | some (.array xs) => some (xs.map elem)
  | _ => none

def specText : JSON → String
  | .string s => s
  | _ => ""

def specGeoCode : JSON → GeoCode
  | .object ms => { ValueName := specString ms "valueName" }
  | _ => GeoCode.zero

def specParameter : JSON → Parameter
  | .object ms => { ValueName := specString ms "valueName", Value := specString ms "value" }
  | _ => Parameter.zero

def specArea : JSON → Area
  | .object ms =>
    { AreaDesc := specString ms "areaDesc", Geocode := specSlice specGeoCode ms "geocode" }
  | _ => Area.zero

def specInfo : JSON → Info
  | .object ms =>
    { Severity := specString ms "severity", Urgency := specString ms "urgency",
      Description := specString ms "description", Headline := specString ms "headline",
      Event := specString ms "event", Certainty := specString ms "certainty",
      Category := specSlice specText ms "category",
      Parameter := specSlice specParameter ms "parameter",
      Area := specSlice specArea ms "area" }
  | _ => Info.zero

/-- The warning a warning object of the feed stands for. -/
def specWarnmeldung : JSON → Warnmeldung
  | .object ms =>
    { Identifier := specString ms "identifier", MsgType := specString ms "msgType",
      Sender := specString ms "sender", Scope := specString ms "scope",
      Sent := specString ms "sent", Status := specString ms "status",
      Code := specSlice specText ms "code",
      Informationen := specSlice specInfo ms "info" }
  | _ => Warnmeldung.zero

/-! ## `GetMeldungen` (lines 91-108) and `main` (lines 66-89) -/

/-- The address of the feed (line 92). -/
def feedURL : String := "https://warnung.bund.de/bbk.mowas/gefahrendurchsagen.json"

def GetMeldungen (W : World) : Slice Warnmeldung × Option Error :=
  match W.urlParse feedURL with
  | .error err => (none, some err)
  | .ok u =>
    match getJSON W u none with
    | (_, some err) => (none, some err)
    | (jsonByteArray, none) =>
      match Unmarshal W jsonByteArray.elems none with
      | (_, some err) => (none, some err)
      | (meldungen, none) => (meldungen, none)

def main (W : World) : Run :=
  match HandleError W.New with
  | some e => { DB := W.DB, out := [], ops := [], exit := .panic e }
  | none =>
    let r := GetMeldungen W
    let out : List Report :=
      match r.2 with
      | some err => [.fehler err]
      | none => []
    (reconcile W.faults 0 W.DB r.1.elems).after out []

/-! ## Concrete inputs used by the examples -/

/-- The warning of the scenario of the spec. -/
def meldungA1 : Warnmeldung :=
  { Identifier := "A1", MsgType := "Alert", Sender := "x", Scope := "Public",
    Sent := "2024-01-01T00:00:00+00:00", Status := "Actual",
    Code := some [], Informationen := some [] }

/-- A later version of the warning `A1`. -/
def meldungA1Update : Warnmeldung := { meldungA1 with MsgType := "Update" }

def meldungB2 : Warnmeldung := { meldungA1 with Identifier := "B2" }

def emptyDB : Driver := { dir := "DB", files := [] }

def dbWithA1 : Driver := { dir := "DB", files := [((DBNAME, "A1"), meldungA1)] }

/-- No store call meets a failure. -/
def noFaults : Faults := { read := fun _ => none, write := fun _ => none }

/-- The first `Read` of the run meets a failure. -/
def firstReadFails : Faults :=
  { read := fun i => if i = 0 then some (.external "read DB/Meldungen/A1.json: input/output error")
      else none,
    write := fun _ => none }

/-- The `Write` of the iteration with index 1 meets a failure. -/
def secondWriteFails : Faults :=
  { read := fun _ => none,
    write := fun i => if i = 1 then some (.external "write DB/Meldungen/B2.json.tmp: no space left on device")
      else none }

/-- The bytes of a text of ASCII characters. -/
def ascii (s : String) : List Byte := s.toList.map (fun c => c.toNat)

/-- A world with the store `DB` and without store failures, in which the server
answers with `resp` and the only grammatical document is `text`, denoting `doc`. -/
def worldOf (DB : Driver) (resp : Except Error Response) (text : List Byte) (doc : JSON) :
    World :=
  { DB := DB, New := none, faults := noFaults,
    urlParse := fun u => .ok u,
    Do := fun _ _ => resp,
    parseJSON := fun data =>
      if data = text then .ok doc else .error (.external "unexpected end of JSON input") }

/-- The response "200 OK" with the body `content`, read without failure. -/
def ok200 (content : List Byte) : Response :=
  { Status := "200 OK", StatusCode := 200, Body := { content := content, failure := none } }

/-- The feed of the scenario of the spec, as text. -/
def feedText : List Byte :=
  ascii ("[\x7b\"identifier\":\"A1\",\"msgType\":\"Alert\",\"sender\":\"x\",\"scope\":\"Public\","
    ++ "\"sent\":\"2024-01-01T00:00:00+00:00\",\"status\":\"Actual\",\"code\":[],\"info\":[]\x7d]")

/-- The feed of the scenario of the spec, as a JSON value. -/
def feedDoc : JSON :=
  .array [.object [("identifier", .string "A1"), ("msgType", .string "Alert"),
    ("sender", .string "x"), ("scope", .string "Public"),
    ("sent", .string "2024-01-01T00:00:00+00:00"), ("status", .string "Actual"),
    ("code", .array []), ("info", .array [])]]

/-- The scenario of the spec: the feed holds `A1`, the store is empty. -/
def scenarioWorld : World := worldOf emptyDB (.ok (ok200 feedText)) feedText feedDoc

/-- The server answers "503 Service Unavailable". -/
def world503 : World :=
  worldOf dbWithA1
    (.ok { Status := "503 Service Unavailable", StatusCode := 503,
           Body := { content := ascii "busy", failure := none } })
    feedText feedDoc

/-- The transfer of the body of the scenario breaks after one byte. -/
def brokenTransfer : Response :=
  { Status := "200 OK", StatusCode := 200,
    Body := { content := feedText, failure := some (1, .external "unexpected EOF") } }

def brokenWorld : World := worldOf emptyDB (.ok brokenTransfer) feedText feedDoc

/-- The body of the response is the document `null`. -/
def nullWorld : World := worldOf emptyDB (.ok (ok200 (ascii "null"))) (ascii "null") .null

/-- The body of the response is the document `[null]`. -/
def nullElementWorld : World :=
  worldOf emptyDB (.ok (ok200 (ascii "[null]"))) (ascii "[null]") (.array [.null])

/-- The body of the response is the document `[5]`. -/
def numberElementWorld : World :=
  worldOf emptyDB (.ok (ok200 (ascii "[5]"))) (ascii "[5]") (.array [.number "5"])

/-- A feed whose first object gives the identifier only and carries the extra
member `polygon`, whose second object omits `code` and `info`, and whose third
object has an `info` block as the real feed sends it, with the extra members
`language`, `polygon` and (inside `geocode`) `value`. -/
def sparseDoc : JSON :=
  .array [.object [("identifier", .string "A1"), ("polygon", .array [.string "9.1,48.7"])],
    .object [("identifier", .string "B2"), ("msgType", .string "Alert"), ("sender", .string "x"),
      ("scope", .string "Public"), ("sent", .string "2024-01-01T00:00:00+00:00"),
      ("status", .string "Actual")],
    .object [("identifier", .string "C3"), ("code", .array [.string "DVN:1"]),
      ("info", .array [.object [("language", .string "DE"),
        ("category", .array [.string "Safety"]), ("event", .string "Gefahreninformation"),
        ("severity", .string "Minor"),
        ("parameter", .array [.object [("valueName", .string "sender_langname"),
          ("value", .string "ILS")]]),
        ("area", .array [.object [("areaDesc", .string "Stadt X"),
          ("polygon", .array [.string "9.1,48.7"]),
          ("geocode", .array [.object [("valueName", .string "X"),
            ("value", .string "091")]])]])]])]]

def sparseText : List Byte :=
  ascii ("[\x7b\"identifier\":\"A1\",\"polygon\":[\"9.1,48.7\"]\x7d,"
    ++ "\x7b\"identifier\":\"B2\",\"msgType\":\"Alert\",\"sender\":\"x\",\"scope\":\"Public\","
    ++ "\"sent\":\"2024-01-01T00:00:00+00:00\",\"status\":\"Actual\"\x7d,"
    ++ "\x7b\"identifier\":\"C3\",\"code\":[\"DVN:1\"],\"info\":[\x7b\"language\":\"DE\","
    ++ "\"category\":[\"Safety\"],\"event\":\"Gefahreninformation\",\"severity\":\"Minor\","
    ++ "\"parameter\":[\x7b\"valueName\":\"sender_langname\",\"value\":\"ILS\"\x7d],"
    ++ "\"area\":[\x7b\"areaDesc\":\"Stadt X\",\"polygon\":[\"9.1,48.7\"],"
    ++ "\"geocode\":[\x7b\"valueName\":\"X\",\"value\":\"091\"\x7d]\x7d]\x7d]\x7d]")

/-- The warning the third object of `sparseDoc` stands for. -/
def meldungC3 : Warnmeldung :=
  { Identifier := "C3", MsgType := "", Sender := "", Scope := "", Sent := "", Status := "",
    Code := some ["DVN:1"],
    Informationen := some [
      { Severity := "Minor", Urgency := "", Description := "", Headline := "",
        Event := "Gefahreninformation", Certainty := "",
        Category := some ["Safety"],
        Parameter := some [{ ValueName := "sender_langname", Value := "ILS" }],
        Area := some [{ AreaDesc := "Stadt X", Geocode := some [{ ValueName := "X" }] }] }] }

/-- The text `json.MarshalIndent(meldung, "", "\t")` gives for `meldungC3`: one
member or element per line, one tab per level of nesting. -/
def meldungC3Text : String :=
  "\x7b\n\t\"identifier\": \"C3\",\n\t\"msgType\": \"\",\n\t\"sender\": \"\",\n"
    ++ "\t\"scope\": \"\",\n\t\"sent\": \"\",\n\t\"status\": \"\",\n\t\"code\": [\n"
    ++ "\t\t\"DVN:1\"\n\t],\n\t\"info\": [\n\t\t\x7b\n\t\t\t\"severity\": \"Minor\",\n"
    ++ "\t\t\t\"urgency\": \"\",\n\t\t\t\"description\": \"\",\n"
    ++ "\t\t\t\"headline\": \"\",\n\t\t\t\"event\": \"Gefahreninformation\",\n"
    ++ "\t\t\t\"certainty\": \"\",\n\t\t\t\"category\": [\n\t\t\t\t\"Safety\"\n"
    ++ "\t\t\t],\n\t\t\t\"parameter\": [\n\t\t\t\t\x7b\n"
    ++ "\t\t\t\t\t\"valueName\": \"sender_langname\",\n\t\t\t\t\t\"value\": \"ILS\"\n"
    ++ "\t\t\t\t\x7d\n\t\t\t],\n\t\t\t\"area\": [\n\t\t\t\t\x7b\n"
    ++ "\t\t\t\t\t\"areaDesc\": \"Stadt X\",\n\t\t\t\t\t\"geocode\": [\n"
    ++ "\t\t\t\t\t\t\x7b\n\t\t\t\t\t\t\t\"valueName\": \"X\"\n\t\t\t\t\t\t\x7d\n"
    ++ "\t\t\t\t\t]\n\t\t\t\t\x7d\n\t\t\t]\n\t\t\x7d\n\t]\n\x7d"

def sparseWorld : World := worldOf emptyDB (.ok (ok200 sparseText)) sparseText sparseDoc

/-- A feed whose object omits `code` and carries the extra member `Code`. -/
def capitalDoc : JSON :=
  .array [.object [("identifier", .string "A1"), ("Code", .number "5")]]

def capitalText : List Byte := ascii "[\x7b\"identifier\":\"A1\",\"Code\":5\x7d]"

def capitalWorld : World := worldOf emptyDB (.ok (ok200 capitalText)) capitalText capitalDoc

/-- A feed whose object carries the extra member `IDENTIFIER`. -/
def shoutDoc : JSON :=
  .array [.object [("identifier", .string "A1"), ("IDENTIFIER", .string "B2")]]

def shoutText : List Byte := ascii "[\x7b\"identifier\":\"A1\",\"IDENTIFIER\":\"B2\"\x7d]"

def shoutWorld : World := worldOf emptyDB (.ok (ok200 shoutText)) shoutText shoutDoc

/-- A feed whose object gives the field `info` twice. -/
def twiceDoc : JSON :=
  .array [.object [("info", .array [.object [("severity", .string "Minor")]]),
    ("info", .array [.object [("urgency", .string "U")]])]]

def twiceText : List Byte :=
  ascii ("[\x7b\"info\":[\x7b\"severity\":\"Minor\"\x7d],"
    ++ "\"info\":[\x7b\"urgency\":\"U\"\x7d]\x7d]")

def twiceWorld : World := worldOf emptyDB (.ok (ok200 twiceText)) twiceText twiceDoc

/-- The store holds `A1`, the feed is `sparseDoc` (`A1`, `B2`, `C3`). -/
def orderWorld : World := worldOf dbWithA1 (.ok (ok200 sparseText)) sparseText sparseDoc

/-- Both the first `Read` and the first `Write` of the run meet a failure. -/
def firstReadAndWriteFail : Faults :=
  { read := fun i => if i = 0 then some (.external "read DB/Meldungen/A1.json: input/output error")
      else none,
    write := fun i => if i = 0 then some (.external "write DB/Meldungen/A1.json.tmp: input/output error")
      else none }

/-! # Theorems -/

/-! ## The store -/

theorem lookup_filter_ne {κ β : Type} [BEq κ] [LawfulBEq κ] (k k' : κ) (l : List (κ × β))
    (h : k' ≠ k) : List.lookup k' (l.filter (fun f => f.1 != k)) = List.lookup k' l := by
  induction l with
  | nil => rfl
  | cons a l ih =>
    obtain ⟨a1, a2⟩ := a
    by_cases hk : a1 = k
    · subst hk
      have h1 : (k' == a1) = false := by simpa using h
      simp [List.filter, List.lookup, h1, ih]
    · have h1 : (a1 != k) = true := by simpa using hk
      simp only [List.filter, h1, List.lookup]
      rw [ih]

theorem record_Write_same (d : Driver) (c r : String) (v : Warnmeldung) :
    (d.Write none c r v).1.record c r = some v := by
  simp [Driver.Write, Driver.record, List.lookup]

theorem record_Write_other (d : Driver) (c r c' r' : String) (v : Warnmeldung)
    (h : (c', r') ≠ (c, r)) :
    (d.Write none c r v).1.record c' r' = d.record c' r' := by
  have h1 : ((c', r') == (c, r)) = false := by simpa using h
  simp only [Driver.Write, Driver.record, List.lookup, h1]
  exact lookup_filter_ne (c, r) (c', r') d.files h

theorem Write_fault (d : Driver) (e : Error) (c r : String) (v : Warnmeldung) :
    d.Write (some e) c r v = (d, some e) := rfl

theorem Write_error_iff (d : Driver) (wf : Option Error) (c r : String) (v : Warnmeldung) :
    (d.Write wf c r v).2 = wf := by
  cases wf <;> rfl

theorem Read_ok_iff (d : Driver) (rf : Option Error) (c r : String) (v : Warnmeldung) :
    (d.Read rf c r v).2 = none ↔ rf = none ∧ (d.record c r).isSome = true := by
  cases rf with
  | some e => simp [Driver.Read]
  | none =>
    cases h : d.record c r <;> simp [Driver.Read, h]

/-! ## The rendering loses nothing -/

theorem hexValue_hexDigit (k : Nat) (h : k < 16) : hexValue (hexDigit k) = k := by
  interval_cases k <;> decide

theorem eq_ofNat_of_toNat (c : Char) (n : Nat) (h : c.toNat = n) : c = Char.ofNat n := by
  rw [← h, Char.ofNat_toNat]

theorem toNat_34 : (Char.ofNat 34).toNat = 34 := rfl
theorem toNat_92 : (Char.ofNat 92).toNat = 92 := rfl
theorem toNat_98 : (Char.ofNat 98).toNat = 98 := rfl
theorem toNat_102 : (Char.ofNat 102).toNat = 102 := rfl
theorem toNat_110 : (Char.ofNat 110).toNat = 110 := rfl
theorem toNat_114 : (Char.ofNat 114).toNat = 114 := rfl
theorem toNat_116 : (Char.ofNat 116).toNat = 116 := rfl
theorem toNat_117 : (Char.ofNat 117).toNat = 117 := rfl
theorem hexValue_48 : hexValue (Char.ofNat 48) = 0 := by decide
theorem hexValue_50 : hexValue (Char.ofNat 50) = 2 := by decide
theorem hexValue_56 : hexValue (Char.ofNat 56) = 8 := by decide
theorem hexValue_57 : hexValue (Char.ofNat 57) = 9 := by decide

/-- The JSON text of a character, followed by anything, is read back as that
character. -/
theorem unescapeRune_escapeRune (c : Char) (r : List Char) :
    unescapeRune (escapeRune c ++ r) = some (c, r) := by
  unfold escapeRune
  split_ifs with h1 h2 h3 h4 h5 h6 h7 h8 h9
  · rcases h1 with h1 | h1 <;>
      simp [unescapeRune, toNat_92, h1]
  · simp [unescapeRune, toNat_92, toNat_98, eq_ofNat_of_toNat c 8 h2]
  · simp [unescapeRune, toNat_92, toNat_98, toNat_102, eq_ofNat_of_toNat c 12 h3]
  · simp [unescapeRune, toNat_92, toNat_98, toNat_102, toNat_110, eq_ofNat_of_toNat c 10 h4]
  · simp [unescapeRune, toNat_92, toNat_98, toNat_102, toNat_110, toNat_114,
      eq_ofNat_of_toNat c 13 h5]
  · simp [unescapeRune, toNat_92, toNat_98, toNat_102, toNat_110, toNat_114, toNat_116,
      eq_ofNat_of_toNat c 9 h6]
  · have e1 : hexValue (hexDigit (c.toNat / 16)) = c.toNat / 16 :=
      hexValue_hexDigit _ (by omega)
    have e2 : hexValue (hexDigit (c.toNat % 16)) = c.toNat % 16 :=
      hexValue_hexDigit _ (by omega)
    have e3 : ((0 * 16 + 0) * 16 + c.toNat / 16) * 16 + c.toNat % 16 = c.toNat := by omega
    simp only [List.cons_append, List.nil_append, unescapeRune, toNat_92, toNat_117,
      hexValue_48, e1, e2, e3, Char.ofNat_toNat]
    simp
  · simp only [List.cons_append, List.nil_append, unescapeRune, toNat_92, toNat_117,
      hexValue_48, hexValue_50, hexValue_56]
    simp [eq_ofNat_of_toNat c 8232 h8]
  · simp only [List.cons_append, List.nil_append, unescapeRune, toNat_92, toNat_117,
      hexValue_48, hexValue_50, hexValue_57]
    simp [eq_ofNat_of_toNat c 8233 h9]
  · push_neg at h1
    simp [unescapeRune, h1.1, h1.2]

/-- The escaped characters of a string up to the closing quotation mark
determine the string. -/
theorem escaped_inj : ∀ (cs ds r s : List Char),
    (cs.map escapeRune).flatten ++ Char.ofNat 34 :: r
      = (ds.map escapeRune).flatten ++ Char.ofNat 34 :: s → cs = ds ∧ r = s := by
  intro cs
  induction cs with
  | nil =>
    intro ds r s h
    cases ds with
    | nil => simpa using h
    | cons d ds =>
      have := congrArg unescapeRune h
      simp only [List.map_nil, List.flatten_nil, List.nil_append, List.map_cons,
        List.flatten_cons, List.append_assoc, unescapeRune_escapeRune] at this
      simp [unescapeRune, toNat_34] at this
  | cons c cs ih =>
    intro ds r s h
    cases ds with
    | nil =>
      have := congrArg unescapeRune h
      simp only [List.map_nil, List.flatten_nil, List.nil_append, List.map_cons,
        List.flatten_cons, List.append_assoc, unescapeRune_escapeRune] at this
      simp [unescapeRune, toNat_34] at this
    | cons d ds =>
      have := congrArg unescapeRune h
      simp only [List.map_cons, List.flatten_cons, List.append_assoc, unescapeRune_escapeRune,
        Option.some.injEq, Prod.mk.injEq] at this
      obtain ⟨rfl, h2⟩ := this
      obtain ⟨rfl, rfl⟩ := ih ds r s h2
      exact ⟨rfl, rfl⟩

theorem append_left_cancel (a x y : String) (h : a ++ x = a ++ y) : x = y := by
  have := congrArg String.data h
  simp only [String.data_append] at this
  exact String.ext (List.append_cancel_left this)

theorem PrefixFree.injective {α : Type} {enc : α → String} (h : PrefixFree enc) (x y : α)
    (hxy : enc x = enc y) : x = y :=
  (h x y "" "" (by rw [hxy])).1

theorem quote_prefixFree : PrefixFree quote := by
  intro a b r s h
  have := congrArg String.data h
  simp only [String.data_append, quote, List.cons_append, List.nil_append, List.append_assoc,
    List.cons.injEq, true_and] at this
  obtain ⟨h1, h2⟩ := escaped_inj _ _ _ _ this
  exact ⟨String.ext h1, String.ext h2⟩

theorem intercalate_go_append (sep : String) : ∀ (l : List String) (acc : String),
    String.intercalate.go acc sep l = acc ++ String.intercalate.go "" sep l := by
  intro l
  induction l with
  | nil => intro acc; simp [String.intercalate.go]
  | cons a l ih =>
    intro acc
    simp only [String.intercalate.go]
    rw [ih (acc ++ sep ++ a), ih ("" ++ sep ++ a)]
    simp [String.append_assoc]

theorem intercalate_one (sep a : String) : sep.intercalate [a] = a := rfl

theorem intercalate_cons_cons (sep a b : String) (rest : List String) :
    sep.intercalate (a :: b :: rest) = a ++ (sep ++ sep.intercalate (b :: rest)) := by
  simp only [String.intercalate, String.intercalate.go]
  rw [intercalate_go_append sep rest (a ++ sep ++ b), intercalate_go_append sep rest b]
  simp [String.append_assoc]

theorem newline_ne_comma (n m : Nat) (x y : String) :
    newline n ++ x ≠ "," ++ (newline m ++ y) := by
  intro h
  have := congrArg String.data h
  simp [String.data_append, newline] at this

/-- The elements of a list, each followed by a comma or, after the last one, by
the line break before the closing bracket, determine the list. -/
theorem elements_inj {α : Type} (e : α → String) (he : PrefixFree e) (n m : Nat) :
    ∀ (xs : List α) (x : α) (ys : List α) (y : α) (r s : String),
      ("," ++ newline m).intercalate ((x :: xs).map e) ++ (newline n ++ r)
        = ("," ++ newline m).intercalate ((y :: ys).map e) ++ (newline n ++ s) →
      x :: xs = y :: ys ∧ r = s := by
  intro xs
  induction xs with
  | nil =>
    intro x ys y r s h
    cases ys with
    | nil =>
      simp only [List.map_cons, List.map_nil, intercalate_one] at h
      obtain ⟨rfl, h2⟩ := he _ _ _ _ h
      exact ⟨rfl, append_left_cancel _ _ _ h2⟩
    | cons y2 ys =>
      simp only [List.map_cons, List.map_nil, intercalate_one, intercalate_cons_cons,
        String.append_assoc] at h
      obtain ⟨_, h2⟩ := he _ _ _ _ h
      exact absurd h2 (newline_ne_comma _ _ _ _)
  | cons x2 xs ih =>
    intro x ys y r s h
    cases ys with
    | nil =>
      simp only [List.map_cons, List.map_nil, intercalate_one, intercalate_cons_cons,
        String.append_assoc] at h
      obtain ⟨_, h2⟩ := he _ _ _ _ h
      exact absurd h2.symm (newline_ne_comma _ _ _ _)
    | cons y2 ys =>
      simp only [List.map_cons, intercalate_cons_cons, String.append_assoc] at h
      obtain ⟨rfl, h2⟩ := he _ _ _ _ h
      have h3 := append_left_cancel _ _ _ (append_left_cancel _ _ _ h2)
      have h4 := ih x2 ys y2 r s (by simpa only [List.map_cons, String.append_assoc] using h3)
      obtain ⟨h5, rfl⟩ := h4
      exact ⟨by rw [h5], rfl⟩

/-- The rendering of a slice determines the slice when the rendering of an
element determines the element. -/
theorem encodeSlice_prefixFree {α : Type} (enc : Nat → α → String) (n : Nat)
    (he : PrefixFree (enc (n + 1))) : PrefixFree (encodeSlice enc n) := by
  intro xs ys r s h
  rcases xs with _ | _ | ⟨x, xs⟩ <;> rcases ys with _ | _ | ⟨y, ys⟩
  · exact ⟨rfl, append_left_cancel _ _ _ h⟩
  · exfalso
    have := congrArg String.data h
    simp [encodeSlice, String.data_append] at this
  · exfalso
    have := congrArg String.data h
    simp [encodeSlice, String.data_append] at this
  · exfalso
    have := congrArg String.data h
    simp [encodeSlice, String.data_append] at this
  · exact ⟨rfl, append_left_cancel _ _ _ h⟩
  · exfalso
    have := congrArg String.data h
    simp [encodeSlice, String.data_append, newline] at this
  · exfalso
    have := congrArg String.data h
    simp [encodeSlice, String.data_append] at this
  · exfalso
    have := congrArg String.data h
    simp [encodeSlice, String.data_append, newline] at this
  · simp only [encodeSlice, String.append_assoc] at h
    have h2 := append_left_cancel _ _ _ (append_left_cancel _ _ _ h)
    obtain ⟨h3, h4⟩ := elements_inj (enc (n + 1)) he n (n + 1) xs x ys y _ _ h2
    exact ⟨by rw [h3], append_left_cancel _ _ _ h4⟩

theorem PrefixFree.selfDelimiting {σ α : Type} {enc : α → String} (h : PrefixFree enc)
    (proj : σ → α) : SelfDelimiting (fun x => enc (proj x)) := by
  intro x y r s hxy
  obtain ⟨h1, h2⟩ := h _ _ _ _ hxy
  exact ⟨by simp only [h1], h2⟩

/-- The member lines of a struct, followed by anything, determine the text of
every member. -/
theorem members_inj {σ : Type} (sep : String) (x y : σ) (T U : String) :
    ∀ (fields : List (String × (σ → String))),
      (∀ f ∈ fields, SelfDelimiting f.2) →
      sep.intercalate (fields.map fun f => quote f.1 ++ (": " ++ f.2 x)) ++ T
        = sep.intercalate (fields.map fun f => quote f.1 ++ (": " ++ f.2 y)) ++ U →
      (∀ f ∈ fields, f.2 x = f.2 y) ∧ T = U := by
  intro fields
  induction fields with
  | nil =>
    intro _ h
    have h2 : T = U := by
      have := congrArg String.data h
      simpa [String.intercalate, String.data_append] using String.ext this
    exact ⟨by simp, h2⟩
  | cons f rest ih =>
    intro hf h
    have hf1 : SelfDelimiting f.2 := hf f (List.mem_cons_self _ _)
    have hrest : ∀ g ∈ rest, SelfDelimiting g.2 := fun g hg => hf g (List.mem_cons_of_mem _ hg)
    cases rest with
    | nil =>
      simp only [List.map_cons, List.map_nil, intercalate_one, String.append_assoc] at h
      have h2 := append_left_cancel _ _ _ (append_left_cancel _ _ _ h)
      obtain ⟨h3, h4⟩ := hf1 _ _ _ _ h2
      exact ⟨by simpa using h3, h4⟩
    | cons g rest =>
      simp only [List.map_cons, intercalate_cons_cons, String.append_assoc] at h
      have h2 := append_left_cancel _ _ _ (append_left_cancel _ _ _ h)
      obtain ⟨h3, h4⟩ := hf1 _ _ _ _ h2
      have h5 := append_left_cancel _ _ _ h4
      obtain ⟨h6, h7⟩ := ih hrest (by simpa only [List.map_cons, String.append_assoc] using h5)
      refine ⟨?_, h7⟩
      intro k hk
      rcases List.mem_cons.mp hk with rfl | hk
      · exact h3
      · exact h6 k hk

/-- The rendering of a struct, followed by anything, determines the text of
every member and where the rendering ends. -/
theorem encodeStruct_fields {σ : Type} (n : Nat) (fields : List (String × (σ → String)))
    (hf : ∀ f ∈ fields, SelfDelimiting f.2) (x y : σ) (r s : String)
    (h : encodeStruct n (fields.map fun f => (f.1, f.2 x)) ++ r
      = encodeStruct n (fields.map fun f => (f.1, f.2 y)) ++ s) :
    (∀ f ∈ fields, f.2 x = f.2 y) ∧ r = s := by
  simp only [encodeStruct, List.map_map, String.append_assoc, Function.comp_def] at h
  have h2 := append_left_cancel _ _ _ (append_left_cancel _ _ _ h)
  obtain ⟨h3, h4⟩ := members_inj _ x y _ _ fields hf h2
  exact ⟨h3, append_left_cancel _ _ _ (append_left_cancel _ _ _ h4)⟩

theorem encodeString_prefixFree (n : Nat) : PrefixFree (encodeString n) :=
  fun x y r s h => quote_prefixFree x y r s h

/-- The rendering of a `GeoCode` determines it. -/
theorem encodeGeoCode_prefixFree (n : Nat) : PrefixFree (encodeGeoCode n) := by
  intro x y r s h
  have hf : ∀ f ∈ ([("valueName", fun v : GeoCode => encodeString (n + 1) v.ValueName)]
        : List (String × (GeoCode → String))), SelfDelimiting f.2 := by
    intro f hf
    simp only [List.mem_cons, List.mem_singleton, List.not_mem_nil, or_false] at hf
    rcases hf with rfl
    · exact (encodeString_prefixFree (n + 1)).selfDelimiting _
  obtain ⟨h1, h2⟩ := encodeStruct_fields n _ hf x y r s h
  refine ⟨?_, h2⟩
  simp only [List.mem_cons, List.mem_singleton, List.not_mem_nil, or_false, forall_eq_or_imp,
    forall_eq] at h1
  have e0 := h1
  exact GeoCode.ext
    ((encodeString_prefixFree (n + 1)).injective _ _ e0)

/-- The rendering of a `Parameter` determines it. -/
theorem encodeParameter_prefixFree (n : Nat) : PrefixFree (encodeParameter n) := by
  intro x y r s h
  have hf : ∀ f ∈ ([("valueName", fun v : Parameter => encodeString (n + 1) v.ValueName),
      ("value", fun v : Parameter => encodeString (n + 1) v.Value)]
        : List (String × (Parameter → String))), SelfDelimiting f.2 := by
    intro f hf
    simp only [List.mem_cons, List.mem_singleton, List.not_mem_nil, or_false] at hf
    rcases hf with rfl | rfl
    · exact (encodeString_prefixFree (n + 1)).selfDelimiting _
    · exact (encodeString_prefixFree (n + 1)).selfDelimiting _
  obtain ⟨h1, h2⟩ := encodeStruct_fields n _ hf x y r s h
  refine ⟨?_, h2⟩
  simp only [List.mem_cons, List.mem_singleton, List.not_mem_nil, or_false, forall_eq_or_imp,
    forall_eq] at h1
  obtain ⟨e0, e1⟩ := h1
  exact Parameter.ext
    ((encodeString_prefixFree (n + 1)).injective _ _ e0)
    ((encodeString_prefixFree (n + 1)).injective _ _ e1)

/-- The rendering of a `Area` determines it. -/
theorem encodeArea_prefixFree (n : Nat) : PrefixFree (encodeArea n) := by
  intro x y r s h
  have hf : ∀ f ∈ ([("areaDesc", fun v : Area => encodeString (n + 1) v.AreaDesc),
      ("geocode", fun v : Area => encodeSlice encodeGeoCode (n + 1) v.Geocode)]
        : List (String × (Area → String))), SelfDelimiting f.2 := by
    intro f hf
    simp only [List.mem_cons, List.mem_singleton, List.not_mem_nil, or_false] at hf
    rcases hf with rfl | rfl
    · exact (encodeString_prefixFree (n + 1)).selfDelimiting _
    · exact (encodeSlice_prefixFree encodeGeoCode (n + 1) (encodeGeoCode_prefixFree (n + 1 + 1))).selfDelimiting _
  obtain ⟨h1, h2⟩ := encodeStruct_fields n _ hf x y r s h
  refine ⟨?_, h2⟩
  simp only [List.mem_cons, List.mem_singleton, List.not_mem_nil, or_false, forall_eq_or_imp,
    forall_eq] at h1
  obtain ⟨e0, e1⟩ := h1
  exact Area.ext
    ((encodeString_prefixFree (n + 1)).injective _ _ e0)
    ((encodeSlice_prefixFree encodeGeoCode (n + 1) (encodeGeoCode_prefixFree (n + 1 + 1))).injective _ _ e1)

/-- The rendering of a `Info` determines it. -/
theorem encodeInfo_prefixFree (n : Nat) : PrefixFree (encodeInfo n) := by
  intro x y r s h
  have hf : ∀ f ∈ ([("severity", fun v : Info => encodeString (n + 1) v.Severity),
      ("urgency", fun v : Info => encodeString (n + 1) v.Urgency),
      ("description", fun v : Info => encodeString (n + 1) v.Description),
      ("headline", fun v : Info => encodeString (n + 1) v.Headline),
      ("event", fun v : Info => encodeString (n + 1) v.Event),
      ("certainty", fun v : Info => encodeString (n + 1) v.Certainty),
      ("category", fun v : Info => encodeSlice encodeString (n + 1) v.Category),
      ("parameter", fun v : Info => encodeSlice encodeParameter (n + 1) v.Parameter),
      ("area", fun v : Info => encodeSlice encodeArea (n + 1) v.Area)]
        : List (String × (Info → String))), SelfDelimiting f.2 := by
    intro f hf
    simp only [List.mem_cons, List.mem_singleton, List.not_mem_nil, or_false] at hf
    rcases hf with rfl | rfl | rfl | rfl | rfl | rfl | rfl | rfl | rfl
    · exact (encodeString_prefixFree (n + 1)).selfDelimiting _
    · exact (encodeString_prefixFree (n + 1)).selfDelimiting _
    · exact (encodeString_prefixFree (n + 1)).selfDelimiting _
    · exact (encodeString_prefixFree (n + 1)).selfDelimiting _
    · exact (encodeString_prefixFree (n + 1)).selfDelimiting _
    · exact (encodeString_prefixFree (n + 1)).selfDelimiting _
    · exact (encodeSlice_prefixFree encodeString (n + 1) (encodeString_prefixFree (n + 1 + 1))).selfDelimiting _
    · exact (encodeSlice_prefixFree encodeParameter (n + 1) (encodeParameter_prefixFree (n + 1 + 1))).selfDelimiting _
    · exact (encodeSlice_prefixFree encodeArea (n + 1) (encodeArea_prefixFree (n + 1 + 1))).selfDelimiting _
  obtain ⟨h1, h2⟩ := encodeStruct_fields n _ hf x y r s h
  refine ⟨?_, h2⟩
  simp only [List.mem_cons, List.mem_singleton, List.not_mem_nil, or_false, forall_eq_or_imp,
    forall_eq] at h1
  obtain ⟨e0, e1, e2, e3, e4, e5, e6, e7, e8⟩ := h1
  exact Info.ext
    ((encodeString_prefixFree (n + 1)).injective _ _ e0)
    ((encodeString_prefixFree (n + 1)).injective _ _ e1)
    ((encodeString_prefixFree (n + 1)).injective _ _ e2)
    ((encodeString_prefixFree (n + 1)).injective _ _ e3)
    ((encodeString_prefixFree (n + 1)).injective _ _ e4)
    ((encodeString_prefixFree (n + 1)).injective _ _ e5)
    ((encodeSlice_prefixFree encodeString (n + 1) (encodeString_prefixFree (n + 1 + 1))).injective _ _ e6)
    ((encodeSlice_prefixFree encodeParameter (n + 1) (encodeParameter_prefixFree (n + 1 + 1))).injective _ _ e7)
    ((encodeSlice_prefixFree encodeArea (n + 1) (encodeArea_prefixFree (n + 1 + 1))).injective _ _ e8)

/-- The rendering of a `Warnmeldung` determines it. -/
theorem encodeWarnmeldung_prefixFree (n : Nat) : PrefixFree (encodeWarnmeldung n) := by
  intro x y r s h
  have hf : ∀ f ∈ ([("identifier", fun v : Warnmeldung => encodeString (n + 1) v.Identifier),
      ("msgType", fun v : Warnmeldung => encodeString (n + 1) v.MsgType),
      ("sender", fun v : Warnmeldung => encodeString (n + 1) v.Sender),
      ("scope", fun v : Warnmeldung => encodeString (n + 1) v.Scope),
      ("sent", fun v : Warnmeldung => encodeString (n + 1) v.Sent),
      ("status", fun v : Warnmeldung => encodeString (n + 1) v.Status),
      ("code", fun v : Warnmeldung => encodeSlice encodeString (n + 1) v.Code),
      ("info", fun v : Warnmeldung => encodeSlice encodeInfo (n + 1) v.Informationen)]
        : List (String × (Warnmeldung → String))), SelfDelimiting f.2 := by
    intro f hf
    simp only [List.mem_cons, List.mem_singleton, List.not_mem_nil, or_false] at hf
    rcases hf with rfl | rfl | rfl | rfl | rfl | rfl | rfl | rfl
    · exact (encodeString_prefixFree (n + 1)).selfDelimiting _
    · exact (encodeString_prefixFree (n + 1)).selfDelimiting _
    · exact (encodeString_prefixFree (n + 1)).selfDelimiting _
    · exact (encodeString_prefixFree (n + 1)).selfDelimiting _
    · exact (encodeString_prefixFree (n + 1)).selfDelimiting _
    · exact (encodeString_prefixFree (n + 1)).selfDelimiting _
    · exact (encodeSlice_prefixFree encodeString (n + 1) (encodeString_prefixFree (n + 1 + 1))).selfDelimiting _
    · exact (encodeSlice_prefixFree encodeInfo (n + 1) (encodeInfo_prefixFree (n + 1 + 1))).selfDelimiting _
  obtain ⟨h1, h2⟩ := encodeStruct_fields n _ hf x y r s h
  refine ⟨?_, h2⟩
  simp only [List.mem_cons, List.mem_singleton, List.not_mem_nil, or_false, forall_eq_or_imp,
    forall_eq] at h1
  obtain ⟨e0, e1, e2, e3, e4, e5, e6, e7⟩ := h1
  exact Warnmeldung.ext
    ((encodeString_prefixFree (n + 1)).injective _ _ e0)
    ((encodeString_prefixFree (n + 1)).injective _ _ e1)
    ((encodeString_prefixFree (n + 1)).injective _ _ e2)
    ((encodeString_prefixFree (n + 1)).injective _ _ e3)
    ((encodeString_prefixFree (n + 1)).injective _ _ e4)
    ((encodeString_prefixFree (n + 1)).injective _ _ e5)
    ((encodeSlice_prefixFree encodeString (n + 1) (encodeString_prefixFree (n + 1 + 1))).injective _ _ e6)
    ((encodeSlice_prefixFree encodeInfo (n + 1) (encodeInfo_prefixFree (n + 1 + 1))).injective _ _ e7)

/-- The rendering of a warning determines the warning: two warnings with the
same indented text are the same in every field. -/
theorem prettyPrint_injective (a b : Warnmeldung) (h : prettyPrint a = prettyPrint b) : a = b :=
  (encodeWarnmeldung_prefixFree 0).injective a b h

/-- The layout of the rendering of a warning: its eight members under their
JSON names, one per line behind one tab, between braces. -/
theorem prettyPrint_layout (m : Warnmeldung) :
    prettyPrint m
      = "\x7b\n\t\"identifier\": " ++ quote m.Identifier
        ++ ",\n\t\"msgType\": " ++ quote m.MsgType
        ++ ",\n\t\"sender\": " ++ quote m.Sender
        ++ ",\n\t\"scope\": " ++ quote m.Scope
        ++ ",\n\t\"sent\": " ++ quote m.Sent
        ++ ",\n\t\"status\": " ++ quote m.Status
        ++ ",\n\t\"code\": " ++ encodeSlice encodeString 1 m.Code
        ++ ",\n\t\"info\": " ++ encodeSlice encodeInfo 1 m.Informationen
        ++ "\n\x7d" := by
  apply String.ext
  simp only [prettyPrint, encodeWarnmeldung, encodeStruct, encodeString, List.map_cons,
    List.map_nil, intercalate_cons_cons, intercalate_one, String.data_append, newline,
    List.append_assoc]
  rfl

/-- The text of a new-report determines the warning. -/
theorem neu_text_injective (a b : Warnmeldung)
    (h : (Report.neu a).text = (Report.neu b).text) : a = b := by
  simp only [Report.text, Println, intercalate_cons_cons, intercalate_one,
    String.append_assoc] at h
  exact ((encodeWarnmeldung_prefixFree 0) a b _ _
    (append_left_cancel _ _ _ (append_left_cancel _ _ _ h))).1

/-! ## One iteration of the loop -/

theorem iteration_known (rf wf : Option Error) (DB : Driver) (meldung : Warnmeldung)
    (h : (DB.Read rf DBNAME meldung.Identifier Warnmeldung.zero).2 = none) :
    iteration rf wf DB meldung
      = { DB := DB, out := [.alt meldung.Identifier],
          ops := [.read DBNAME meldung.Identifier], exit := .normal } := by
  simp only [iteration, h]

theorem iteration_written (rf : Option Error) (DB : Driver) (meldung : Warnmeldung)
    (h : (DB.Read rf DBNAME meldung.Identifier Warnmeldung.zero).2 ≠ none) :
    iteration rf none DB meldung
      = { DB := (DB.Write none DBNAME meldung.Identifier meldung).1, out := [.neu meldung],
          ops := [.read DBNAME meldung.Identifier,
            .write DBNAME meldung.Identifier meldung],
          exit := .normal } := by
  cases hr : (DB.Read rf DBNAME meldung.Identifier Warnmeldung.zero).2 with
  | none => exact absurd hr h
  | some e => simp only [iteration, hr, Driver.Write, HandleError]

theorem iteration_aborted (rf : Option Error) (e : Error) (DB : Driver) (meldung : Warnmeldung)
    (h : (DB.Read rf DBNAME meldung.Identifier Warnmeldung.zero).2 ≠ none) :
    iteration rf (some e) DB meldung
      = { DB := DB, out := [],
          ops := [.read DBNAME meldung.Identifier,
            .write DBNAME meldung.Identifier meldung],
          exit := .panic e } := by
  cases hr : (DB.Read rf DBNAME meldung.Identifier Warnmeldung.zero).2 with
  | none => exact absurd hr h
  | some e' => simp only [iteration, hr, Driver.Write, HandleError]

/-- The three ways an iteration can go. -/
theorem iteration_cases (rf wf : Option Error) (DB : Driver) (meldung : Warnmeldung) :
    (((DB.Read rf DBNAME meldung.Identifier Warnmeldung.zero).2 = none) ∧
      iteration rf wf DB meldung
        = { DB := DB, out := [.alt meldung.Identifier],
            ops := [.read DBNAME meldung.Identifier], exit := .normal })
    ∨ (((DB.Read rf DBNAME meldung.Identifier Warnmeldung.zero).2 ≠ none) ∧ wf = none ∧
      iteration rf wf DB meldung
        = { DB := (DB.Write none DBNAME meldung.Identifier meldung).1, out := [.neu meldung],
            ops := [.read DBNAME meldung.Identifier,
              .write DBNAME meldung.Identifier meldung],
            exit := .normal })
    ∨ (((DB.Read rf DBNAME meldung.Identifier Warnmeldung.zero).2 ≠ none) ∧
      ∃ e, wf = some e ∧ iteration rf wf DB meldung
        = { DB := DB, out := [],
            ops := [.read DBNAME meldung.Identifier,
              .write DBNAME meldung.Identifier meldung],
            exit := .panic e }) := by
  by_cases h : (DB.Read rf DBNAME meldung.Identifier Warnmeldung.zero).2 = none
  · exact Or.inl ⟨h, iteration_known rf wf DB meldung h⟩
  · cases wf with
    | none => exact Or.inr (Or.inl ⟨h, rfl, iteration_written rf DB meldung h⟩)
    | some e => exact Or.inr (Or.inr ⟨h, e, rfl, iteration_aborted rf e DB meldung h⟩)

theorem Println_two (a b : String) : Println [a, b] = a ++ " " ++ b ++ "\n" := rfl

/-! ## The loop -/

theorem reconcile_nil (F : Faults) (i : Nat) (DB : Driver) :
    reconcile F i DB [] = { DB := DB, out := [], ops := [], exit := .normal } := rfl

theorem reconcile_cons_known (F : Faults) (i : Nat) (DB : Driver) (m : Warnmeldung)
    (rest : List Warnmeldung)
    (h : (DB.Read (F.read i) DBNAME m.Identifier Warnmeldung.zero).2 = none) :
    reconcile F i DB (m :: rest)
      = (reconcile F (i + 1) DB rest).after [.alt m.Identifier] [.read DBNAME m.Identifier] := by
  simp only [reconcile, iteration_known _ _ _ _ h]

theorem reconcile_cons_written (F : Faults) (i : Nat) (DB : Driver) (m : Warnmeldung)
    (rest : List Warnmeldung)
    (h : (DB.Read (F.read i) DBNAME m.Identifier Warnmeldung.zero).2 ≠ none)
    (hw : F.write i = none) :
    reconcile F i DB (m :: rest)
      = (reconcile F (i + 1) (DB.Write none DBNAME m.Identifier m).1 rest).after [.neu m]
          [.read DBNAME m.Identifier, .write DBNAME m.Identifier m] := by
  simp only [reconcile, hw, iteration_written _ _ _ h]

theorem reconcile_cons_aborted (F : Faults) (i : Nat) (DB : Driver) (m : Warnmeldung)
    (rest : List Warnmeldung) (e : Error)
    (h : (DB.Read (F.read i) DBNAME m.Identifier Warnmeldung.zero).2 ≠ none)
    (hw : F.write i = some e) :
    reconcile F i DB (m :: rest)
      = { DB := DB, out := [],
          ops := [.read DBNAME m.Identifier, .write DBNAME m.Identifier m],
          exit := .panic e } := by
  simp only [reconcile, hw, iteration_aborted _ _ _ _ h]

@[simp]
theorem after_DB (out : List Report) (ops : List Op) (r : Run) :
    (r.after out ops).DB = r.DB := rfl

@[simp]
theorem after_exit (out : List Report) (ops : List Op) (r : Run) :
    (r.after out ops).exit = r.exit := rfl

@[simp]
theorem after_out (out : List Report) (ops : List Op) (r : Run) :
    (r.after out ops).out = out ++ r.out := rfl

@[simp]
theorem after_ops (out : List Report) (ops : List Op) (r : Run) :
    (r.after out ops).ops = ops ++ r.ops := rfl

theorem after_after (o1 o2 : List Report) (p1 p2 : List Op) (r : Run) :
    (r.after o2 p2).after o1 p1 = r.after (o1 ++ o2) (p1 ++ p2) := by
  simp [Run.after, List.append_assoc]

/-- A record is never removed by the loop. -/
theorem reconcile_record_isSome (F : Faults) (c r : String) (batch : List Warnmeldung) :
    ∀ (i : Nat) (DB : Driver), (DB.record c r).isSome = true →
      ((reconcile F i DB batch).DB.record c r).isSome = true := by
  induction batch with
  | nil => intro i DB h; simpa [reconcile_nil] using h
  | cons m rest ih =>
    intro i DB h
    by_cases hr : (DB.Read (F.read i) DBNAME m.Identifier Warnmeldung.zero).2 = none
    · rw [reconcile_cons_known F i DB m rest hr]
      simpa using ih (i + 1) DB h
    · cases hw : F.write i with
      | some e => rw [reconcile_cons_aborted F i DB m rest e hr hw]; simpa using h
      | none =>
        rw [reconcile_cons_written F i DB m rest hr hw]
        simp only [after_DB]
        apply ih
        by_cases hk : (c, r) = (DBNAME, m.Identifier)
        · obtain ⟨rfl, rfl⟩ := Prod.mk.inj hk
          rw [record_Write_same]; rfl
        · rw [record_Write_other _ _ _ _ _ _ hk]; exact h

/-- A record is left as it is when no lookup of its identifier meets a failure. -/
theorem reconcile_record_eq (F : Faults) (c r : String) (w : Warnmeldung)
    (batch : List Warnmeldung) :
    ∀ (i : Nat) (DB : Driver), DB.record c r = some w →
      (∀ j m, batch[j]? = some m → m.Identifier = r → F.read (i + j) = none) →
      (reconcile F i DB batch).DB.record c r = some w := by
  induction batch with
  | nil => intro i DB h _; simpa [reconcile_nil] using h
  | cons m rest ih =>
    intro i DB h hF
    have hrest : ∀ j m', rest[j]? = some m' → m'.Identifier = r → F.read (i + 1 + j) = none := by
      intro j m' hj hid
      have := hF (j + 1) m' (by simpa using hj) hid
      rw [← this]; congr 1; omega
    by_cases hr : (DB.Read (F.read i) DBNAME m.Identifier Warnmeldung.zero).2 = none
    · rw [reconcile_cons_known F i DB m rest hr]
      simpa using ih (i + 1) DB h hrest
    · cases hw : F.write i with
      | some e => rw [reconcile_cons_aborted F i DB m rest e hr hw]; simpa using h
      | none =>
        rw [reconcile_cons_written F i DB m rest hr hw]
        simp only [after_DB]
        apply ih _ _ _ hrest
        by_cases hk : (c, r) = (DBNAME, m.Identifier)
        · obtain ⟨rfl, rfl⟩ := Prod.mk.inj hk
          exfalso
          apply hr
          rw [Read_ok_iff]
          refine ⟨?_, by rw [h]; rfl⟩
          simpa using hF 0 m (by simp) rfl
        · rw [record_Write_other _ _ _ _ _ _ hk]; exact h

/-- A run that is not aborted prints one report per warning, in order. -/
theorem reconcile_out_identifier (F : Faults) (batch : List Warnmeldung) :
    ∀ (i : Nat) (DB : Driver), (reconcile F i DB batch).exit = .normal →
      (reconcile F i DB batch).out.map Report.identifier
        = batch.map (fun m => some m.Identifier) := by
  induction batch with
  | nil => intro i DB _; rfl
  | cons m rest ih =>
    intro i DB h
    by_cases hr : (DB.Read (F.read i) DBNAME m.Identifier Warnmeldung.zero).2 = none
    · rw [reconcile_cons_known F i DB m rest hr] at h ⊢
      simp only [after_exit] at h
      simp [ih (i + 1) DB h, Report.identifier]
    · cases hw : F.write i with
      | some e => rw [reconcile_cons_aborted F i DB m rest e hr hw] at h; cases h
      | none =>
        rw [reconcile_cons_written F i DB m rest hr hw] at h ⊢
        simp only [after_exit] at h
        simp [ih (i + 1) _ h, Report.identifier]

theorem reconcile_append (F : Faults) (ys : List Warnmeldung) (xs : List Warnmeldung) :
    ∀ (i : Nat) (DB : Driver), (reconcile F i DB xs).exit = .normal →
      reconcile F i DB (xs ++ ys)
        = (reconcile F (i + xs.length) (reconcile F i DB xs).DB ys).after
            (reconcile F i DB xs).out (reconcile F i DB xs).ops := by
  induction xs with
  | nil => intro i DB _; simp [reconcile_nil, Run.after]
  | cons m rest ih =>
    intro i DB h
    have e1 : i + (m :: rest).length = i + 1 + rest.length := by simp; omega
    by_cases hr : (DB.Read (F.read i) DBNAME m.Identifier Warnmeldung.zero).2 = none
    · rw [reconcile_cons_known F i DB m rest hr] at h ⊢
      simp only [after_exit] at h
      rw [List.cons_append, reconcile_cons_known F i DB m _ hr, ih (i + 1) DB h, after_after, e1]
      simp
    · cases hw : F.write i with
      | some e => rw [reconcile_cons_aborted F i DB m rest e hr hw] at h; cases h
      | none =>
        rw [reconcile_cons_written F i DB m rest hr hw] at h ⊢
        simp only [after_exit] at h
        rw [List.cons_append, reconcile_cons_written F i DB m _ hr hw, ih (i + 1) _ h,
          after_after, e1]
        simp

/-- A run that is not aborted makes one read per warning and one write per
new-report. -/
theorem reconcile_ops_count (F : Faults) (batch : List Warnmeldung) :
    ∀ (i : Nat) (DB : Driver), (reconcile F i DB batch).exit = .normal →
      ((reconcile F i DB batch).ops.filter Op.isRead).length = batch.length
      ∧ ((reconcile F i DB batch).ops.filter Op.isWrite).length
          = ((reconcile F i DB batch).out.filter Report.isNeuMeldung).length := by
  induction batch with
  | nil => intro i DB _; exact ⟨rfl, rfl⟩
  | cons m rest ih =>
    intro i DB h
    by_cases hr : (DB.Read (F.read i) DBNAME m.Identifier Warnmeldung.zero).2 = none
    · rw [reconcile_cons_known F i DB m rest hr] at h ⊢
      simp only [after_exit] at h
      have IH := ih (i + 1) DB h
      simp [List.filter_cons, Op.isRead, Op.isWrite, Report.isNeuMeldung, IH.1, IH.2]
    · cases hw : F.write i with
      | some e => rw [reconcile_cons_aborted F i DB m rest e hr hw] at h; cases h
      | none =>
        rw [reconcile_cons_written F i DB m rest hr hw] at h ⊢
        simp only [after_exit] at h
        have IH := ih (i + 1) _ h
        simp [List.filter_cons, Op.isRead, Op.isWrite, Report.isNeuMeldung, IH.1, IH.2]

/-- After a run that is not aborted every warning of the batch has a record. -/
theorem reconcile_all_recorded (F : Faults) (batch : List Warnmeldung) :
    ∀ (i : Nat) (DB : Driver), (reconcile F i DB batch).exit = .normal →
      ∀ m ∈ batch, ((reconcile F i DB batch).DB.record DBNAME m.Identifier).isSome = true := by
  induction batch with
  | nil => intro i DB _ m hm; cases hm
  | cons m rest ih =>
    intro i DB h m' hm'
    by_cases hr : (DB.Read (F.read i) DBNAME m.Identifier Warnmeldung.zero).2 = none
    · rw [reconcile_cons_known F i DB m rest hr] at h ⊢
      simp only [after_exit] at h
      simp only [after_DB]
      rcases List.mem_cons.mp hm' with rfl | hm'
      · exact reconcile_record_isSome F _ _ rest _ _ ((Read_ok_iff _ _ _ _ _).mp hr).2
      · exact ih (i + 1) DB h m' hm'
    · cases hw : F.write i with
      | some e => rw [reconcile_cons_aborted F i DB m rest e hr hw] at h; cases h
      | none =>
        rw [reconcile_cons_written F i DB m rest hr hw] at h ⊢
        simp only [after_exit] at h
        simp only [after_DB]
        rcases List.mem_cons.mp hm' with rfl | hm'
        · apply reconcile_record_isSome
          rw [record_Write_same]; rfl
        · exact ih (i + 1) _ h m' hm'

/-- Without read failures a batch whose identifiers all have a record is
reported as known, entry by entry, and nothing is written. -/
theorem reconcile_all_known (F : Faults) (hF : ∀ j, F.read j = none)
    (batch : List Warnmeldung) :
    ∀ (i : Nat) (DB : Driver),
      (∀ m ∈ batch, (DB.record DBNAME m.Identifier).isSome = true) →
      reconcile F i DB batch
        = { DB := DB, out := batch.map (fun m => .alt m.Identifier),
            ops := batch.map (fun m => .read DBNAME m.Identifier), exit := .normal } := by
  induction batch with
  | nil => intro i DB _; rfl
  | cons m rest ih =>
    intro i DB h
    have hr : (DB.Read (F.read i) DBNAME m.Identifier Warnmeldung.zero).2 = none :=
      (Read_ok_iff _ _ _ _ _).mpr ⟨hF i, h m (List.mem_cons_self _ _)⟩
    rw [reconcile_cons_known F i DB m rest hr,
      ih (i + 1) DB (fun m' hm' => h m' (List.mem_cons_of_mem _ hm'))]
    simp [Run.after]

theorem record_Write_isSome (DB : Driver) (id id' : String) (m : Warnmeldung) :
    ((DB.Write none DBNAME id m).1.record DBNAME id').isSome
      = (decide (id' = id) || (DB.record DBNAME id').isSome) := by
  by_cases h : id' = id
  · subst h; rw [record_Write_same]; simp
  · rw [record_Write_other _ _ _ _ _ _ (by simpa using h)]; simp [h]

/-- Without read failures, the report of each entry of a run that is not
aborted is the new-report exactly when the identifier has no record at the
start and does not occur earlier in the batch. -/
theorem reconcile_out_get (F : Faults) (hF : ∀ j, F.read j = none)
    (batch : List Warnmeldung) :
    ∀ (i : Nat) (DB : Driver), (reconcile F i DB batch).exit = .normal →
      ∀ (k : Nat) (m : Warnmeldung), batch[k]? = some m →
        (reconcile F i DB batch).out[k]?
          = some (if (DB.record DBNAME m.Identifier).isSome = true
                ∨ m.Identifier ∈ (batch.take k).map (fun x => x.Identifier)
              then Report.alt m.Identifier else Report.neu m) := by
  induction batch with
  | nil => intro i DB _ k m hk; simp at hk
  | cons m rest ih =>
    intro i DB h k m' hk
    by_cases hr : (DB.Read (F.read i) DBNAME m.Identifier Warnmeldung.zero).2 = none
    · have hrec := ((Read_ok_iff _ _ _ _ _).mp hr).2
      rw [reconcile_cons_known F i DB m rest hr] at h ⊢
      simp only [after_exit] at h
      cases k with
      | zero =>
        simp only [List.getElem?_cons_zero, Option.some.injEq] at hk
        subst hk
        simp [hrec]
      | succ k =>
        simp only [List.getElem?_cons_succ] at hk
        simp only [after_out, List.singleton_append, List.getElem?_cons_succ]
        rw [ih (i + 1) DB h k m' hk]
        congr 1
        by_cases hid : m'.Identifier = m.Identifier
        · simp [hid, hrec]
        · simp [hid]
    · have hrec : (DB.record DBNAME m.Identifier).isSome = false := by
        cases hc : (DB.record DBNAME m.Identifier).isSome with
        | false => rfl
        | true => exact absurd ((Read_ok_iff _ _ _ _ _).mpr ⟨hF i, hc⟩) hr
      cases hw : F.write i with
      | some e => rw [reconcile_cons_aborted F i DB m rest e hr hw] at h; cases h
      | none =>
        rw [reconcile_cons_written F i DB m rest hr hw] at h ⊢
        simp only [after_exit] at h
        cases k with
        | zero =>
          simp only [List.getElem?_cons_zero, Option.some.injEq] at hk
          subst hk
          simp [hrec]
        | succ k =>
          simp only [List.getElem?_cons_succ] at hk
          simp only [after_out, List.singleton_append, List.getElem?_cons_succ]
          rw [ih (i + 1) _ h k m' hk, record_Write_isSome]
          congr 1
          by_cases hid : m'.Identifier = m.Identifier
          · simp [hid]
          · simp [hid]

/-- Without read failures an identifier is reported as new at most once in a
run, and not at all when it has a record at the start. -/
theorem reconcile_count_neu (F : Faults) (hF : ∀ j, F.read j = none) (id : String)
    (batch : List Warnmeldung) :
    ∀ (i : Nat) (DB : Driver), (reconcile F i DB batch).exit = .normal →
      ((reconcile F i DB batch).out.filter (Report.isNeu id)).length ≤ 1
      ∧ ((DB.record DBNAME id).isSome = true →
          (reconcile F i DB batch).out.filter (Report.isNeu id) = []) := by
  induction batch with
  | nil => intro i DB _; simp [reconcile_nil]
  | cons m rest ih =>
    intro i DB h
    by_cases hr : (DB.Read (F.read i) DBNAME m.Identifier Warnmeldung.zero).2 = none
    · rw [reconcile_cons_known F i DB m rest hr] at h ⊢
      simp only [after_exit] at h
      simpa [List.filter, Report.isNeu] using ih (i + 1) DB h
    · have hrec : (DB.record DBNAME m.Identifier).isSome = false := by
        cases hc : (DB.record DBNAME m.Identifier).isSome with
        | false => rfl
        | true => exact absurd ((Read_ok_iff _ _ _ _ _).mpr ⟨hF i, hc⟩) hr
      cases hw : F.write i with
      | some e => rw [reconcile_cons_aborted F i DB m rest e hr hw] at h; cases h
      | none =>
        rw [reconcile_cons_written F i DB m rest hr hw] at h ⊢
        simp only [after_exit] at h
        have IH := ih (i + 1) (DB.Write none DBNAME m.Identifier m).1 h
        rw [record_Write_isSome] at IH
        by_cases hid : m.Identifier = id
        · subst hid
          have h0 := IH.2 (by simp)
          simp [List.filter, Report.isNeu, h0, hrec]
        · have hid' : ¬ id = m.Identifier := fun hc => hid hc.symm
          have hb : Report.isNeu id (Report.neu m) = false := by
            simp [Report.isNeu, hid]
          simp only [after_out, List.singleton_append, List.filter_cons, hb]
          refine ⟨IH.1, fun hs => IH.2 ?_⟩
          simp [hs]

/-- When no write meets a failure the loop is not aborted. -/
theorem reconcile_exit_normal (F : Faults) (hw : ∀ i, F.write i = none)
    (batch : List Warnmeldung) :
    ∀ (i : Nat) (DB : Driver), (reconcile F i DB batch).exit = .normal := by
  induction batch with
  | nil => intro i DB; rfl
  | cons m rest ih =>
    intro i DB
    by_cases hr : (DB.Read (F.read i) DBNAME m.Identifier Warnmeldung.zero).2 = none
    · rw [reconcile_cons_known F i DB m rest hr]
      simpa using ih (i + 1) DB
    · rw [reconcile_cons_written F i DB m rest hr (hw i)]
      simpa using ih (i + 1) _

/-- In a run that is not aborted the report at each index is the new-report of
the warning at that index or the known-report of its identifier. -/
theorem reconcile_out_shape (F : Faults) (batch : List Warnmeldung) :
    ∀ (i : Nat) (DB : Driver), (reconcile F i DB batch).exit = .normal →
      ∀ (k : Nat) (m : Warnmeldung), batch[k]? = some m →
        (reconcile F i DB batch).out[k]? = some (.neu m)
        ∨ (reconcile F i DB batch).out[k]? = some (.alt m.Identifier) := by
  induction batch with
  | nil => intro i DB _ k m hk; simp at hk
  | cons m rest ih =>
    intro i DB h k m' hk
    by_cases hr : (DB.Read (F.read i) DBNAME m.Identifier Warnmeldung.zero).2 = none
    · rw [reconcile_cons_known F i DB m rest hr] at h ⊢
      simp only [after_exit] at h
      cases k with
      | zero =>
        simp only [List.getElem?_cons_zero, Option.some.injEq] at hk
        subst hk
        exact Or.inr (by simp)
      | succ k =>
        simp only [List.getElem?_cons_succ] at hk
        simpa using ih (i + 1) DB h k m' hk
    · cases hw : F.write i with
      | some e => rw [reconcile_cons_aborted F i DB m rest e hr hw] at h; cases h
      | none =>
        rw [reconcile_cons_written F i DB m rest hr hw] at h ⊢
        simp only [after_exit] at h
        cases k with
        | zero =>
          simp only [List.getElem?_cons_zero, Option.some.injEq] at hk
          subst hk
          exact Or.inl (by simp)
        | succ k =>
          simp only [List.getElem?_cons_succ] at hk
          simpa using ih (i + 1) _ h k m' hk

/-- The record of an identifier after the loop is the record it had before or
a warning of the batch with that identifier. -/
theorem reconcile_record_origin (F : Faults) (c r : String) (batch : List Warnmeldung) :
    ∀ (i : Nat) (DB : Driver) (w : Warnmeldung), DB.record c r = some w →
      (reconcile F i DB batch).DB.record c r = some w
      ∨ (c = DBNAME ∧ ∃ m ∈ batch, m.Identifier = r
          ∧ (reconcile F i DB batch).DB.record c r = some m) := by
  induction batch with
  | nil => intro i DB w h; exact Or.inl (by simpa [reconcile_nil] using h)
  | cons m rest ih =>
    intro i DB w h
    by_cases hr : (DB.Read (F.read i) DBNAME m.Identifier Warnmeldung.zero).2 = none
    · rw [reconcile_cons_known F i DB m rest hr]
      simp only [after_DB]
      rcases ih (i + 1) DB w h with h1 | ⟨hc, m', hm', hid, h1⟩
      · exact Or.inl h1
      · exact Or.inr ⟨hc, m', List.mem_cons_of_mem _ hm', hid, h1⟩
    · cases hw : F.write i with
      | some e =>
        rw [reconcile_cons_aborted F i DB m rest e hr hw]
        exact Or.inl h
      | none =>
        rw [reconcile_cons_written F i DB m rest hr hw]
        simp only [after_DB]
        by_cases hk : (c, r) = (DBNAME, m.Identifier)
        · obtain ⟨rfl, rfl⟩ := Prod.mk.inj hk
          right
          refine ⟨rfl, ?_⟩
          rcases ih (i + 1) (DB.Write none DBNAME m.Identifier m).1 m
              (record_Write_same _ _ _ _) with h1 | ⟨_, m', hm', hid, h1⟩
          · exact ⟨m, List.mem_cons_self _ _, rfl, h1⟩
          · exact ⟨m', List.mem_cons_of_mem _ hm', hid, h1⟩
        · rcases ih (i + 1) (DB.Write none DBNAME m.Identifier m).1 w
              (by rw [record_Write_other _ _ _ _ _ _ hk]; exact h) with h1 | ⟨hc, m', hm', hid, h1⟩
          · exact Or.inl h1
          · exact Or.inr ⟨hc, m', List.mem_cons_of_mem _ hm', hid, h1⟩

/-! ## Results on the reconcile loop -/

/-- C2: one iteration of the loop. If the lookup of the identifier in the
collection "Meldungen" fails (there is no record, or the read meets a failure)
and the write succeeds, the store afterwards holds the warning under its
identifier and the one report is the new-report. The text of the new-report is
"Neue Meldung:", a line break, a blank and the indented rendering of the
warning; the rendering lists the eight members of the warning under their JSON
names, one per line behind one tab, between braces; and it is the rendering of
the full warning: a warning whose new-report has the same text is the same
warning in every field. If the lookup succeeds, no write is made, the store is
the same and the one report carries the identifier only. -/
theorem iteration_new_or_known (rf wf : Option Error) (DB : Driver) (meldung : Warnmeldung) :
    (((DB.Read rf DBNAME meldung.Identifier Warnmeldung.zero).2 ≠ none
        ↔ (rf ≠ none ∨ DB.record DBNAME meldung.Identifier = none)))
    ∧ ((DB.Read rf DBNAME meldung.Identifier Warnmeldung.zero).2 ≠ none →
        (DB.Write wf DBNAME meldung.Identifier meldung).2 = none →
          (iteration rf wf DB meldung).exit = .normal
          ∧ (iteration rf wf DB meldung).DB.record DBNAME meldung.Identifier = some meldung
          ∧ (iteration rf wf DB meldung).out = [.neu meldung]
          ∧ (Report.neu meldung).text = "Neue Meldung:\n " ++ prettyPrint meldung ++ "\n"
          ∧ prettyPrint meldung
              = "\x7b\n\t\"identifier\": " ++ quote meldung.Identifier
                ++ ",\n\t\"msgType\": " ++ quote meldung.MsgType
                ++ ",\n\t\"sender\": " ++ quote meldung.Sender
                ++ ",\n\t\"scope\": " ++ quote meldung.Scope
                ++ ",\n\t\"sent\": " ++ quote meldung.Sent
                ++ ",\n\t\"status\": " ++ quote meldung.Status
                ++ ",\n\t\"code\": " ++ encodeSlice encodeString 1 meldung.Code
                ++ ",\n\t\"info\": " ++ encodeSlice encodeInfo 1 meldung.Informationen
                ++ "\n\x7d"
          ∧ (∀ other : Warnmeldung,
              (Report.neu other).text = (Report.neu meldung).text → other = meldung)
          ∧ (iteration rf wf DB meldung).ops
              = [.read DBNAME meldung.Identifier, .write DBNAME meldung.Identifier meldung])
    ∧ ((DB.Read rf DBNAME meldung.Identifier Warnmeldung.zero).2 = none →
          (iteration rf wf DB meldung).exit = .normal
          ∧ (iteration rf wf DB meldung).DB = DB
          ∧ (iteration rf wf DB meldung).out = [.alt meldung.Identifier]
          ∧ (Report.alt meldung.Identifier).text
              = "Alte Meldung gefunden: " ++ meldung.Identifier ++ "\n"
          ∧ (iteration rf wf DB meldung).ops = [.read DBNAME meldung.Identifier]) := by
  refine ⟨?_, ?_, ?_⟩
  · rw [Ne, Read_ok_iff]
    cases rf <;> cases h : DB.record DBNAME meldung.Identifier <;> simp
  · intro hr hw
    rw [Write_error_iff] at hw
    subst hw
    rw [iteration_written rf DB meldung hr]
    refine ⟨rfl, record_Write_same _ _ _ _, rfl, rfl, ?_, ?_, rfl⟩
    · exact prettyPrint_layout meldung
    · intro other h
      exact neu_text_injective other meldung h
  · intro hr
    rw [iteration_known rf wf DB meldung hr]
    exact ⟨rfl, rfl, rfl, rfl, rfl⟩

/-- Witness of C2: on the empty store the warning `A1` is written and reported
as new; on a store holding `A1` it is reported as known; on the empty store the
warning `C3`, which has an information block with a category, a parameter and
an area with a geocode, is reported as new with its indented text, and the
update of `A1` has another text than `A1`. -/
theorem iteration_new_or_known_witness :
    ((emptyDB.Read none DBNAME meldungA1.Identifier Warnmeldung.zero).2 ≠ none
      ∧ (emptyDB.Write none DBNAME meldungA1.Identifier meldungA1).2 = none
      ∧ (iteration none none emptyDB meldungA1).DB = dbWithA1
      ∧ (iteration none none emptyDB meldungA1).out = [.neu meldungA1])
    ∧ ((dbWithA1.Read none DBNAME meldungA1.Identifier Warnmeldung.zero).2 = none
      ∧ (iteration none none dbWithA1 meldungA1).DB = dbWithA1
      ∧ (iteration none none dbWithA1 meldungA1).out = [.alt "A1"])
    ∧ ((emptyDB.Read none DBNAME meldungC3.Identifier Warnmeldung.zero).2 ≠ none
      ∧ (emptyDB.Write none DBNAME meldungC3.Identifier meldungC3).2 = none
      ∧ (iteration none none emptyDB meldungC3).out = [.neu meldungC3]
      ∧ (Report.neu meldungC3).text = "Neue Meldung:\n " ++ meldungC3Text ++ "\n"
      ∧ prettyPrint meldungC3 = meldungC3Text
      ∧ (Report.neu meldungA1Update).text ≠ (Report.neu meldungA1).text) :=
  ⟨⟨by decide, by decide, by decide,
      ((iteration_new_or_known none none emptyDB meldungA1).2.1 (by decide) (by decide)).2.2.1⟩,
    ⟨by decide,
      ((iteration_new_or_known none none dbWithA1 meldungA1).2.2 (by decide)).2.1,
      ((iteration_new_or_known none none dbWithA1 meldungA1).2.2 (by decide)).2.2.1⟩,
    ⟨by decide, by decide,
      ((iteration_new_or_known none none emptyDB meldungC3).2.1 (by decide) (by decide)).2.2.1,
      by decide, by decide,
      fun h =>
        absurd (((iteration_new_or_known none none emptyDB meldungA1).2.1 (by decide)
          (by decide)).2.2.2.2.2.1 meldungA1Update h) (by decide)⟩⟩

/-- C1 (as amended): when no store write fails and no lookup meets a read
failure (a lookup fails only where there is no record), running the loop twice
over the same batch reports an identifier as new at most once across both
runs: entry `k` of the first run is reported as new exactly when its identifier
has no record in the initial store and does not occur earlier in the batch, and
as known otherwise; every entry of the second run is reported as known, and
the second run writes nothing. -/
theorem reconcile_twice_new_once (F1 F2 : Faults) (DB : Driver) (batch : List Warnmeldung)
    (hr1 : ∀ i, F1.read i = none) (hr2 : ∀ i, F2.read i = none)
    (h1 : (reconcile F1 0 DB batch).exit = .normal) :
    (∀ (k : Nat) (m : Warnmeldung), batch[k]? = some m →
        (reconcile F1 0 DB batch).out[k]?
          = some (if (DB.record DBNAME m.Identifier).isSome = true
                ∨ m.Identifier ∈ (batch.take k).map (fun x => x.Identifier)
              then Report.alt m.Identifier else Report.neu m))
    ∧ reconcile F2 0 (reconcile F1 0 DB batch).DB batch
        = { DB := (reconcile F1 0 DB batch).DB,
            out := batch.map (fun m => .alt m.Identifier),
            ops := batch.map (fun m => .read DBNAME m.Identifier), exit := .normal }
    ∧ ∀ id : String,
        (((reconcile F1 0 DB batch).out
            ++ (reconcile F2 0 (reconcile F1 0 DB batch).DB batch).out).filter
              (Report.isNeu id)).length ≤ 1 := by
  have h2 := reconcile_all_known F2 hr2 batch 0 (reconcile F1 0 DB batch).DB
    (reconcile_all_recorded F1 batch 0 DB h1)
  refine ⟨reconcile_out_get F1 hr1 batch 0 DB h1, h2, fun id => ?_⟩
  rw [h2, List.filter_append]
  have h3 : List.filter (Report.isNeu id) (batch.map (fun m => Report.alt m.Identifier)) = [] := by
    rw [List.filter_eq_nil_iff]
    intro a ha
    obtain ⟨m, _, rfl⟩ := List.mem_map.mp ha
    simp [Report.isNeu]
  simp only [h3, List.append_nil]
  exact (reconcile_count_neu F1 hr1 id batch 0 DB h1).1

/-- Witness of C1: the batch `[A1, A1]` on the empty store. -/
theorem reconcile_twice_new_once_witness :
    (∀ i, noFaults.read i = none)
    ∧ (reconcile noFaults 0 emptyDB [meldungA1, meldungA1]).exit = .normal
    ∧ (reconcile noFaults 0 emptyDB [meldungA1, meldungA1]).out = [.neu meldungA1, .alt "A1"]
    ∧ (reconcile noFaults 0 (reconcile noFaults 0 emptyDB [meldungA1, meldungA1]).DB
          [meldungA1, meldungA1]).out = [.alt "A1", .alt "A1"]
    ∧ (((reconcile noFaults 0 emptyDB [meldungA1, meldungA1]).out
          ++ (reconcile noFaults 0 (reconcile noFaults 0 emptyDB [meldungA1, meldungA1]).DB
              [meldungA1, meldungA1]).out).filter (Report.isNeu "A1")).length ≤ 1 :=
  ⟨fun _ => rfl, by decide, by decide, by decide,
    (reconcile_twice_new_once noFaults noFaults emptyDB [meldungA1, meldungA1]
      (fun _ => rfl) (fun _ => rfl) (by decide)).2.2 "A1"⟩

/-- Counterexample to C1 as stated: no write fails, yet a lookup that meets a
read failure makes the loop report an identifier as new although the initial
store holds a record for it, and report it as new in both of two runs. -/
theorem reconcile_twice_new_twice :
    (dbWithA1.record DBNAME "A1").isSome = true
    ∧ (reconcile firstReadFails 0 dbWithA1 [meldungA1]).exit = .normal
    ∧ (reconcile firstReadFails 0 dbWithA1 [meldungA1]).out = [.neu meldungA1]
    ∧ (reconcile firstReadFails 0 (reconcile firstReadFails 0 dbWithA1 [meldungA1]).DB
          [meldungA1]).exit = .normal
    ∧ (reconcile firstReadFails 0 (reconcile firstReadFails 0 dbWithA1 [meldungA1]).DB
          [meldungA1]).out = [.neu meldungA1]
    ∧ ¬ (((reconcile firstReadFails 0 dbWithA1 [meldungA1]).out
          ++ (reconcile firstReadFails 0 (reconcile firstReadFails 0 dbWithA1 [meldungA1]).DB
              [meldungA1]).out).filter (Report.isNeu "A1")).length ≤ 1 := by
  decide

/-- C3 (as amended): the loop never removes a record: every (collection,
identifier) that has a record before the run has one after it. The record is
equal to the one before whenever no lookup of that identifier meets a read
failure during the run; in any case it is the record held before or a warning
of the batch with that identifier. When the lookup of an identifier that has a
record fails with a read error, the loop attempts the write: if the write
succeeds the warning replaces the record, if it fails the store stays as it is
and the run is aborted. -/
theorem reconcile_keeps_records (F : Faults) (DB : Driver) (batch : List Warnmeldung)
    (c r : String) (w : Warnmeldung) (h : DB.record c r = some w) :
    ((reconcile F 0 DB batch).DB.record c r).isSome = true
    ∧ ((∀ j m, batch[j]? = some m → m.Identifier = r → F.read j = none) →
        (reconcile F 0 DB batch).DB.record c r = some w)
    ∧ ((reconcile F 0 DB batch).DB.record c r = some w
        ∨ (c = DBNAME ∧ ∃ m ∈ batch, m.Identifier = r
            ∧ (reconcile F 0 DB batch).DB.record c r = some m))
    ∧ (∀ (rf wf : Option Error) (D : Driver) (m old : Warnmeldung),
        D.record DBNAME m.Identifier = some old → rf ≠ none →
          (wf = none →
            (iteration rf wf D m).exit = .normal
            ∧ (iteration rf wf D m).out = [.neu m]
            ∧ (iteration rf wf D m).DB.record DBNAME m.Identifier = some m)
          ∧ (∀ e, wf = some e →
            (iteration rf wf D m).exit = .panic e
            ∧ (iteration rf wf D m).out = []
            ∧ (iteration rf wf D m).DB = D)) := by
  refine ⟨reconcile_record_isSome F c r batch 0 DB (by rw [h]; rfl), fun hF => ?_,
    reconcile_record_origin F c r batch 0 DB w h, ?_⟩
  · exact reconcile_record_eq F c r w batch 0 DB h
      (fun j m hj hid => by simpa using hF j m hj hid)
  · intro rf wf D m old _ hrf
    have hr : (D.Read rf DBNAME m.Identifier Warnmeldung.zero).2 ≠ none := by
      rw [Ne, Read_ok_iff]
      exact fun hc => hrf hc.1
    refine ⟨fun hwf => ?_, fun e hwf => ?_⟩
    · subst hwf
      rw [iteration_written rf D m hr]
      exact ⟨rfl, rfl, record_Write_same _ _ _ _⟩
    · subst hwf
      rw [iteration_aborted rf e D m hr]
      exact ⟨rfl, rfl, rfl⟩

/-- Witness of C3: a later version of `A1` arrives while `A1` has a record. With
reads that succeed the record stays; with a failing read and a successful
write it is replaced; with a failing read and a failing write it stays and
the run is aborted. -/
theorem reconcile_keeps_records_witness :
    dbWithA1.record DBNAME "A1" = some meldungA1
    ∧ (∀ j m, [meldungA1Update, meldungB2][j]? = some m → m.Identifier = "A1"
        → noFaults.read j = none)
    ∧ (reconcile noFaults 0 dbWithA1 [meldungA1Update, meldungB2]).DB.record DBNAME "A1"
        = some meldungA1
    ∧ (iteration (firstReadFails.read 0) none dbWithA1 meldungA1Update).DB.record DBNAME "A1"
        = some meldungA1Update
    ∧ (iteration (firstReadAndWriteFail.read 0) (firstReadAndWriteFail.write 0) dbWithA1
        meldungA1Update).DB = dbWithA1
    ∧ (reconcile firstReadAndWriteFail 0 dbWithA1 [meldungA1Update, meldungB2])
        = { DB := dbWithA1, out := [],
            ops := [.read DBNAME "A1", .write DBNAME "A1" meldungA1Update],
            exit := .panic (.external "write DB/Meldungen/A1.json.tmp: input/output error") } :=
  ⟨by decide, fun _ _ _ _ => rfl,
    (reconcile_keeps_records noFaults dbWithA1 [meldungA1Update, meldungB2] DBNAME "A1"
      meldungA1 (by decide)).2.1 (fun _ _ _ _ => rfl),
    (((reconcile_keeps_records noFaults dbWithA1 [] DBNAME "A1" meldungA1 (by decide)).2.2.2
      (firstReadFails.read 0) none dbWithA1 meldungA1Update meldungA1 (by decide)
      (by decide)).1 rfl).2.2,
    (((reconcile_keeps_records noFaults dbWithA1 [] DBNAME "A1" meldungA1 (by decide)).2.2.2
      (firstReadAndWriteFail.read 0) (firstReadAndWriteFail.write 0) dbWithA1 meldungA1Update
      meldungA1 (by decide) (by decide)).2 _ rfl).2.2,
    by decide⟩

/-- Counterexample to C3 as stated: the lookup of `A1` meets a read failure, the
loop takes the warning for a new one and writes it, and the record of `A1` is
no longer the one the store held before the run. -/
theorem reconcile_replaces_record :
    dbWithA1.record DBNAME "A1" = some meldungA1
    ∧ (reconcile firstReadFails 0 dbWithA1 [meldungA1Update]).exit = .normal
    ∧ (reconcile firstReadFails 0 dbWithA1 [meldungA1Update]).DB.record DBNAME "A1"
        = some meldungA1Update
    ∧ meldungA1Update ≠ meldungA1 := by
  decide

/-- C9: if the store write for the warning at index `i` fails (earlier
iterations were not aborted, its lookup failed and its write returned an
error), the run is aborted there: the reports are exactly those of the
warnings before it, one per warning and in order, and none for the warning
itself; the store calls end with the one read and the one failed write of that
warning, so that there are `i + 1` reads in all (none for a later warning) and
one write per new-report plus the failed one (no second attempt); the store is
the one left by the earlier iterations, and every earlier warning has a
record in it. -/
theorem write_failure_aborts_run (F : Faults) (DB : Driver) (batch : List Warnmeldung)
    (i : Nat) (m : Warnmeldung) (e : Error) (hm : batch[i]? = some m)
    (hpre : (reconcile F 0 DB (batch.take i)).exit = .normal)
    (hread : ((reconcile F 0 DB (batch.take i)).DB.Read (F.read i) DBNAME m.Identifier
        Warnmeldung.zero).2 ≠ none)
    (hwrite : ((reconcile F 0 DB (batch.take i)).DB.Write (F.write i) DBNAME m.Identifier
        m).2 = some e) :
    reconcile F 0 DB batch
      = { DB := (reconcile F 0 DB (batch.take i)).DB,
          out := (reconcile F 0 DB (batch.take i)).out,
          ops := (reconcile F 0 DB (batch.take i)).ops
            ++ [.read DBNAME m.Identifier, .write DBNAME m.Identifier m],
          exit := .panic e }
    ∧ (reconcile F 0 DB batch).out.map Report.identifier
        = (batch.take i).map (fun x => some x.Identifier)
    ∧ (reconcile F 0 DB batch).out.length = i
    ∧ ((reconcile F 0 DB batch).ops.filter Op.isRead).length = i + 1
    ∧ ((reconcile F 0 DB batch).ops.filter Op.isWrite).length
        = ((reconcile F 0 DB batch).out.filter Report.isNeuMeldung).length + 1
    ∧ ∀ x ∈ batch.take i,
        ((reconcile F 0 DB batch).DB.record DBNAME x.Identifier).isSome = true := by
  have hi : i < batch.length := by
    by_contra hc
    rw [List.getElem?_eq_none (by omega)] at hm
    cases hm
  have hlen : (batch.take i).length = i := by
    rw [List.length_take]; omega
  have hsplit : batch = batch.take i ++ m :: batch.drop (i + 1) := by
    have hd : batch.drop i = m :: batch.drop (i + 1) := by
      rw [List.drop_eq_getElem_cons hi]
      congr 1
      rw [List.getElem?_eq_getElem hi] at hm
      exact Option.some.inj hm
    rw [← hd, List.take_append_drop]
  rw [Write_error_iff] at hwrite
  have key : reconcile F 0 DB batch
      = { DB := (reconcile F 0 DB (batch.take i)).DB,
          out := (reconcile F 0 DB (batch.take i)).out,
          ops := (reconcile F 0 DB (batch.take i)).ops
            ++ [.read DBNAME m.Identifier, .write DBNAME m.Identifier m],
          exit := .panic e } := by
    conv_lhs => rw [hsplit]
    rw [reconcile_append F _ _ 0 DB hpre, hlen, Nat.zero_add,
      reconcile_cons_aborted F i _ m _ e hread hwrite]
    simp [Run.after]
  have hcount := reconcile_ops_count F _ 0 DB hpre
  refine ⟨key, ?_, ?_, ?_, ?_, ?_⟩
  · rw [key]; exact reconcile_out_identifier F _ 0 DB hpre
  · rw [key]
    have := congrArg List.length (reconcile_out_identifier F _ 0 DB hpre)
    simp only [List.length_map] at this
    rw [this, hlen]
  · rw [key]
    simp [List.filter_append, List.filter_cons, Op.isRead, hcount.1, hlen]
  · rw [key]
    simp [List.filter_append, List.filter_cons, Op.isWrite, hcount.2]
  · rw [key]; exact reconcile_all_recorded F _ 0 DB hpre

/-- Witness of C9: the write of the second warning of `[A1, B2, A1]` fails. -/
theorem write_failure_aborts_run_witness :
    [meldungA1, meldungB2, meldungA1][1]? = some meldungB2
    ∧ reconcile secondWriteFails 0 emptyDB [meldungA1, meldungB2, meldungA1]
      = { DB := dbWithA1, out := [.neu meldungA1],
          ops := [.read DBNAME "A1", .write DBNAME "A1" meldungA1,
            .read DBNAME "B2", .write DBNAME "B2" meldungB2],
          exit := .panic (.external "write DB/Meldungen/B2.json.tmp: no space left on device") } :=
  ⟨by decide,
    (write_failure_aborts_run secondWriteFails emptyDB [meldungA1, meldungB2, meldungA1] 1
      meldungB2 (.external "write DB/Meldungen/B2.json.tmp: no space left on device")
      (by decide) (by decide) (by decide) (by decide)).1⟩

/-! ## The fetcher -/

theorem getJSON_of_response (W : World) (url : String) (hvals : Option (List (String × String)))
    (req : Request) (resp : Response) (hreq : NewRequest W "GET" url = .ok req)
    (hdo : W.Do getJSON.client (getJSON.headers req hvals) = .ok resp) :
    getJSON W url hvals
      = if resp.StatusCode < 200 ∨ resp.StatusCode ≥ 300 then
          (none, some (.errorString resp.Status))
        else (some (ReadAll resp.Body).1, none) := by
  simp only [getJSON, hreq, hdo]

/-- C5: for a response received without transport error, `getJSON` returns the
status error, whose message is the status line of the response, exactly when
the status code is below 200 or at least 300, and then it returns no bytes; for
a status code from 200 to 299 it returns no error. -/
theorem getJSON_status_error (W : World) (url : String)
    (hvals : Option (List (String × String))) (req : Request) (resp : Response)
    (hreq : NewRequest W "GET" url = .ok req)
    (hdo : W.Do getJSON.client (getJSON.headers req hvals) = .ok resp) :
    ((getJSON W url hvals).2 = some (.errorString resp.Status)
        ↔ (resp.StatusCode < 200 ∨ resp.StatusCode ≥ 300))
    ∧ ((resp.StatusCode < 200 ∨ resp.StatusCode ≥ 300) →
        getJSON W url hvals = (none, some (.errorString resp.Status))
        ∧ (Error.errorString resp.Status).Error = resp.Status)
    ∧ ((200 ≤ resp.StatusCode ∧ resp.StatusCode < 300) → (getJSON W url hvals).2 = none) := by
  rw [getJSON_of_response W url hvals req resp hreq hdo]
  by_cases h : resp.StatusCode < 200 ∨ resp.StatusCode ≥ 300
  · rw [if_pos h]
    refine ⟨⟨fun _ => h, fun _ => rfl⟩, fun _ => ⟨rfl, rfl⟩, fun h2 => ?_⟩
    exfalso
    omega
  · rw [if_neg h]
    refine ⟨⟨fun hc => ?_, fun hc => absurd hc h⟩, fun hc => absurd hc h, fun _ => rfl⟩
    cases hc

/-- Witness of C5: the answer "503 Service Unavailable". -/
theorem getJSON_status_error_witness :
    NewRequest world503 "GET" feedURL = .ok { Method := "GET", URL := feedURL, Header := [] }
    ∧ getJSON world503 feedURL none = (none, some (.errorString "503 Service Unavailable")) :=
  ⟨rfl,
    ((getJSON_status_error world503 feedURL none { Method := "GET", URL := feedURL, Header := [] }
      { Status := "503 Service Unavailable", StatusCode := 503,
        Body := { content := ascii "busy", failure := none } } rfl rfl).2.1
      (Or.inr (by decide))).1⟩

/-- When the body is read without failure, a response with a status code
from 200 to 299 yields the whole body and no error. -/
theorem getJSON_whole_body (W : World) (url : String)
    (hvals : Option (List (String × String))) (req : Request) (resp : Response)
    (hreq : NewRequest W "GET" url = .ok req)
    (hdo : W.Do getJSON.client (getJSON.headers req hvals) = .ok resp)
    (hs : 200 ≤ resp.StatusCode ∧ resp.StatusCode < 300) (hb : resp.Body.failure = none) :
    getJSON W url hvals = (some resp.Body.content, none) := by
  rw [getJSON_of_response W url hvals req resp hreq hdo, if_neg (by omega)]
  simp only [ReadAll, hb]

/-- C6, the code at the failing input: the transfer of the body breaks after
one byte, and `getJSON` returns that one byte together with the nil error,
although `ReadAll` reported the failure and the body is longer. -/
theorem getJSON_drops_read_error :
    brokenTransfer.StatusCode = 200
    ∧ (ReadAll brokenTransfer.Body).2 = some (.external "unexpected EOF")
    ∧ getJSON brokenWorld feedURL none = (some [91], none)
    ∧ [91] ≠ brokenTransfer.Body.content
    ∧ GetMeldungen brokenWorld = (none, some (.external "unexpected end of JSON input")) := by
  decide

/-! ## The decoder -/

theorem firstError_ne_none_left (e1 e2 : Option Error) (h : e1 ≠ none) :
    firstError e1 e2 ≠ none := by
  cases e1 with
  | none => exact absurd rfl h
  | some e => simp [firstError]

theorem firstError_ne_none_right (e1 e2 : Option Error) (h : e2 ≠ none) :
    firstError e1 e2 ≠ none := by
  cases e1 with
  | none => simpa [firstError] using h
  | some e => simp [firstError]

theorem decodeElems_length {α : Type} (zero : α) (elem : α → JSON → α × Option Error)
    (cur : List α) (xs : List JSON) :
    ∀ i, (decodeElems zero elem cur i xs).1.length = xs.length := by
  induction xs with
  | nil => intro i; rfl
  | cons x xs ih => intro i; simp [decodeElems, ih]

/-- Decoding into the nil slice decodes every element into a zero value. -/
theorem decodeElems_nil {α : Type} (zero : α) (elem : α → JSON → α × Option Error)
    (xs : List JSON) :
    ∀ i, (decodeElems zero elem [] i xs).1 = xs.map (fun x => (elem zero x).1) := by
  induction xs with
  | nil => intro i; rfl
  | cons x xs ih => intro i; simp [decodeElems, ih]

/-- An element that cannot be decoded makes the array fail. -/
theorem decodeElems_error {α : Type} (zero : α) (elem : α → JSON → α × Option Error)
    (cur : List α) (xs : List JSON) :
    ∀ i, (∃ x ∈ xs, ∀ c, (elem c x).2 ≠ none) → (decodeElems zero elem cur i xs).2 ≠ none := by
  induction xs with
  | nil => intro i h; obtain ⟨x, hx, _⟩ := h; cases hx
  | cons y ys ih =>
    intro i h
    obtain ⟨x, hx, hbad⟩ := h
    simp only [decodeElems]
    rcases List.mem_cons.mp hx with rfl | hx
    · exact firstError_ne_none_left _ _ (hbad _)
    · exact firstError_ne_none_right _ _ (ih (i + 1) ⟨x, hx, hbad⟩)

/-! ## `GetMeldungen` -/

theorem GetMeldungen_of_data (W : World) (u : String) (data : List Byte)
    (hu : W.urlParse feedURL = .ok u) (hget : getJSON W u none = (some data, none)) :
    GetMeldungen W
      = match Unmarshal W data none with
        | (_, some err) => (none, some err)
        | (meldungen, none) => (meldungen, none) := by
  simp only [GetMeldungen, hu, hget, Slice.elems, Option.getD]

/-- Whenever `GetMeldungen` returns an error it returns the nil slice. -/
theorem GetMeldungen_error_nil (W : World) (h : (GetMeldungen W).2 ≠ none) :
    (GetMeldungen W).1 = none := by
  unfold GetMeldungen at h ⊢
  cases hu : W.urlParse feedURL with
  | error err => rfl
  | ok u =>
    simp only [hu] at h ⊢
    rcases hg : getJSON W u none with ⟨b, _ | e⟩
    · simp only [hg] at h ⊢
      rcases hj : Unmarshal W b.elems none with ⟨ms, _ | e⟩
      · simp only [hj] at h; exact absurd rfl h
      · rfl
    · rfl

/-- The failures of `GetMeldungen`: a URL error, a transport error, a status
outside 200..299 and a document with a syntax error each make it return the
error and the nil slice. -/
theorem GetMeldungen_failures (W : World) :
    (∀ err, W.urlParse feedURL = .error err → GetMeldungen W = (none, some err))
    ∧ (∀ u req err, W.urlParse feedURL = .ok u → NewRequest W "GET" u = .ok req →
        W.Do getJSON.client (getJSON.headers req none) = .error err →
        GetMeldungen W = (none, some err))
    ∧ (∀ u req resp, W.urlParse feedURL = .ok u → NewRequest W "GET" u = .ok req →
        W.Do getJSON.client (getJSON.headers req none) = .ok resp →
        (resp.StatusCode < 200 ∨ resp.StatusCode ≥ 300) →
        GetMeldungen W = (none, some (.errorString resp.Status)))
    ∧ (∀ u data err, W.urlParse feedURL = .ok u → getJSON W u none = (some data, none) →
        W.parseJSON data = .error err → GetMeldungen W = (none, some err)) := by
  refine ⟨?_, ?_, ?_, ?_⟩
  · intro err h
    simp only [GetMeldungen, h]
  · intro u req err hu hreq hdo
    simp only [GetMeldungen, hu, getJSON, hreq, hdo]
  · intro u req resp hu hreq hdo hs
    simp only [GetMeldungen, hu, getJSON_of_response W u none req resp hreq hdo, hs, if_true]
  · intro u data err hu hget hp
    rw [GetMeldungen_of_data W u data hu hget]
    simp only [Unmarshal, hp]

theorem decodeStruct_error {σ : Type} (ctx : ErrorContext) (goType struct : String)
    (names : List String) (set : ErrorContext → σ → Nat → JSON → σ × Option Error) (cur : σ)
    (v : JSON) (h1 : v.isNull = false) (h2 : v.isObject = false) :
    (decodeStruct ctx goType struct names set cur v).2 ≠ none := by
  cases v <;> simp_all [decodeStruct, JSON.isNull, JSON.isObject]

theorem decodeSlice_error {α : Type} (ctx : ErrorContext) (goType : String) (zero : α)
    (elem : α → JSON → α × Option Error) (cur : Slice α) (v : JSON)
    (h1 : v.isNull = false) (h2 : v.isArray = false) :
    decodeSlice ctx goType zero elem cur v = (cur, some (typeError ctx v.kind goType)) := by
  cases v <;> simp_all [decodeSlice, JSON.isNull, JSON.isArray, JSON.kind]

/-- C7 (as amended): for every fetched byte string that is malformed JSON, or
whose top-level value is an object, a string, a number or a boolean, or is an
array with an element that is a string, a number, a boolean or an array,
`GetMeldungen` returns a decode error and the nil slice, never a filled one.
(JSON `null` is accepted where an array or an object is expected.) -/
theorem GetMeldungen_decode_error (W : World) (u : String) (data : List Byte)
    (hu : W.urlParse feedURL = .ok u) (hget : getJSON W u none = (some data, none)) :
    (∀ err, W.parseJSON data = .error err → GetMeldungen W = (none, some err))
    ∧ (∀ v, W.parseJSON data = .ok v → v.isNull = false → v.isArray = false →
        GetMeldungen W = (none, some (.unmarshalType v.kind "[]main.Warnmeldung" "" "")))
    ∧ (∀ xs, W.parseJSON data = .ok (.array xs) →
        (∃ x ∈ xs, x.isNull = false ∧ x.isObject = false) →
        (GetMeldungen W).1 = none ∧ (GetMeldungen W).2 ≠ none) := by
  refine ⟨fun err hp => (GetMeldungen_failures W).2.2.2 u data err hu hget hp, ?_, ?_⟩
  · intro v hp h1 h2
    rw [GetMeldungen_of_data W u data hu hget]
    simp only [Unmarshal, hp, decodeSlice_error _ _ _ _ _ v h1 h2]
    rfl
  · intro xs hp hx
    have herr : (GetMeldungen W).2 ≠ none := by
      rw [GetMeldungen_of_data W u data hu hget]
      have hd : (decodeElems Warnmeldung.zero (decodeWarnmeldung ErrorContext.root) [] 0 xs).2
          ≠ none := by
        apply decodeElems_error
        obtain ⟨x, hx, h1, h2⟩ := hx
        exact ⟨x, hx, fun c => decodeStruct_error _ _ _ _ _ c x h1 h2⟩
      simp only [Unmarshal, hp, decodeSlice, Slice.elems, Option.getD]
      cases he : (decodeElems Warnmeldung.zero (decodeWarnmeldung ErrorContext.root) [] 0 xs).2 with
      | none => exact absurd he hd
      | some e => simp
    exact ⟨GetMeldungen_error_nil W herr, herr⟩

/-- Witness of C7: the document `[5]`. -/
theorem GetMeldungen_decode_error_witness :
    numberElementWorld.urlParse feedURL = .ok feedURL
    ∧ getJSON numberElementWorld feedURL none = (some (ascii "[5]"), none)
    ∧ numberElementWorld.parseJSON (ascii "[5]") = .ok (.array [.number "5"])
    ∧ (GetMeldungen numberElementWorld).1 = none
    ∧ (GetMeldungen numberElementWorld).2 ≠ none :=
  ⟨rfl, by decide, rfl,
    (GetMeldungen_decode_error numberElementWorld feedURL (ascii "[5]") rfl (by decide)).2.2
      [.number "5"] rfl ⟨.number "5", by simp, rfl, rfl⟩⟩

/-- Counterexample to C7 as stated: the documents `null` and `[null]` are not
arrays of objects, yet `GetMeldungen` returns no error for them; for `[null]` it
returns a sequence holding one zero-valued warning. -/
theorem GetMeldungen_accepts_null :
    (getJSON nullWorld feedURL none = (some (ascii "null"), none)
      ∧ nullWorld.parseJSON (ascii "null") = .ok .null
      ∧ GetMeldungen nullWorld = (none, none))
    ∧ (getJSON nullElementWorld feedURL none = (some (ascii "[null]"), none)
      ∧ nullElementWorld.parseJSON (ascii "[null]") = .ok (.array [.null])
      ∧ GetMeldungen nullElementWorld = (some [Warnmeldung.zero], none)) :=
  ⟨⟨by decide, rfl, by decide⟩, ⟨by decide, rfl, by decide⟩⟩

/-! ## `main` -/

theorem main_of_New (W : World) (hnew : W.New = none) :
    main W
      = (reconcile W.faults 0 W.DB (GetMeldungen W).1.elems).after
          (match (GetMeldungen W).2 with
            | some err => [.fehler err]
            | none => []) [] := by
  simp only [main, hnew, HandleError]

/-- C8: whenever `GetMeldungen` fails (with a URL, transport, status or decode
error), `main` prints the message of the error, makes no store call, prints no
new/known report, leaves the store as it was and ends normally. -/
theorem main_fetch_failure (W : World) (err : Error) (hnew : W.New = none)
    (h : (GetMeldungen W).2 = some err) :
    main W = { DB := W.DB, out := [.fehler err], ops := [], exit := .normal }
    ∧ (Report.fehler err).text
        = "Could not get data due to error " ++ err.Error ++ "\n" := by
  refine ⟨?_, rfl⟩
  have hnil : (GetMeldungen W).1 = none :=
    GetMeldungen_error_nil W (by rw [h]; exact Option.some_ne_none err)
  rw [main_of_New W hnew, h, hnil]
  rfl

/-- Witness of C8: the server answers "503 Service Unavailable". -/
theorem main_fetch_failure_witness :
    world503.New = none
    ∧ (GetMeldungen world503).2 = some (.errorString "503 Service Unavailable")
    ∧ main world503
        = { DB := dbWithA1, out := [.fehler (.errorString "503 Service Unavailable")],
            ops := [], exit := .normal } :=
  ⟨rfl, by decide,
    (main_fetch_failure world503 (.errorString "503 Service Unavailable") rfl (by decide)).1⟩

/-- C4: when `GetMeldungen` returns a batch of `n` warnings and no store
write fails, the loop ends normally and prints exactly `n` reports; the report
at each index is the new-report of the warning at that index or the
known-report of its identifier, and the warning at each index is the one
decoded from the element at that index of the JSON array. -/
theorem main_reports_in_feed_order (W : World) (hnew : W.New = none)
    (hget : (GetMeldungen W).2 = none) (hw : ∀ i, W.faults.write i = none) :
    (main W).exit = .normal
    ∧ (main W).out.length = (GetMeldungen W).1.elems.length
    ∧ (main W).out.map Report.identifier
        = (GetMeldungen W).1.elems.map (fun m => some m.Identifier)
    ∧ (∀ (i : Nat) (m : Warnmeldung), (GetMeldungen W).1.elems[i]? = some m →
        (main W).out[i]? = some (.neu m) ∨ (main W).out[i]? = some (.alt m.Identifier))
    ∧ (∀ u data xs, W.urlParse feedURL = .ok u → getJSON W u none = (some data, none) →
        W.parseJSON data = .ok (.array xs) →
        (GetMeldungen W).1.elems
          = xs.map (fun x => (decodeWarnmeldung ErrorContext.root Warnmeldung.zero x).1)) := by
  have hexit := reconcile_exit_normal W.faults hw (GetMeldungen W).1.elems 0 W.DB
  have hmain : main W
      = (reconcile W.faults 0 W.DB (GetMeldungen W).1.elems).after [] [] := by
    rw [main_of_New W hnew, hget]
  have hout : (main W).out = (reconcile W.faults 0 W.DB (GetMeldungen W).1.elems).out := by
    rw [hmain]; rfl
  have hid := reconcile_out_identifier W.faults _ 0 W.DB hexit
  refine ⟨?_, ?_, ?_, ?_, ?_⟩
  · rw [hmain]; exact hexit
  · have := congrArg List.length hid
    simpa [hout] using this
  · rw [hout]; exact hid
  · intro i m hm
    rw [hout]
    exact reconcile_out_shape W.faults _ 0 W.DB hexit i m hm
  · intro u data xs hu hg hp
    have h2 := hget
    rw [GetMeldungen_of_data W u data hu hg] at h2 ⊢
    simp only [Unmarshal, hp, decodeSlice, Slice.elems, Option.getD] at h2 ⊢
    cases he : (decodeElems Warnmeldung.zero (decodeWarnmeldung ErrorContext.root) [] 0 xs).2 with
    | some e => simp [he] at h2
    | none => simp [he, decodeElems_nil]

/-- Witness of C4: the feed holds `A1`, `B2` and `C3` in this order and the store
holds `A1`: three reports, in the order of the feed. -/
theorem main_reports_in_feed_order_witness :
    orderWorld.New = none
    ∧ (GetMeldungen orderWorld).2 = none
    ∧ (∀ i, orderWorld.faults.write i = none)
    ∧ (GetMeldungen orderWorld).1.elems.map (fun m => m.Identifier) = ["A1", "B2", "C3"]
    ∧ (main orderWorld).out.map Report.identifier = [some "A1", some "B2", some "C3"]
    ∧ (main orderWorld).out
        = [.alt "A1", .neu { meldungB2 with Code := none, Informationen := none },
            .neu meldungC3]
    ∧ (main orderWorld).exit = .normal :=
  ⟨rfl, by decide, fun _ => rfl, by decide,
    (main_reports_in_feed_order orderWorld rfl (by decide) (fun _ => rfl)).2.2.1.trans
      (by decide),
    by decide,
    (main_reports_in_feed_order orderWorld rfl (by decide) (fun _ => rfl)).1⟩

/-! ## Decoding an object into a struct -/

theorem equalFold_self (n : String) : equalFold n n = true := by
  simp [equalFold]

theorem indexWhere_none (p : String → Bool) (names : List String)
    (h : ∀ n ∈ names, p n = false) : indexWhere p names = none := by
  induction names with
  | nil => rfl
  | cons n rest ih =>
    have h1 := h n (List.mem_cons_self _ _)
    simp only [indexWhere, h1]
    rw [ih (fun m hm => h m (List.mem_cons_of_mem _ hm))]
    rfl

theorem indexWhere_beq_of_getElem (key : String) (names : List String) (hnd : names.Nodup) :
    ∀ j, names[j]? = some key → indexWhere (fun n => n == key) names = some j := by
  induction names with
  | nil => intro j h; simp at h
  | cons n rest ih =>
    intro j h
    cases j with
    | zero =>
      simp only [List.getElem?_cons_zero, Option.some.injEq] at h
      simp [indexWhere, h]
    | succ j =>
      simp only [List.getElem?_cons_succ] at h
      have hmem : key ∈ rest := List.getElem?_mem h
      have hne : (n == key) = false := by
        have : n ≠ key := fun hc => (List.nodup_cons.mp hnd).1 (hc ▸ hmem)
        simpa using this
      simp only [indexWhere, hne]
      rw [ih (List.nodup_cons.mp hnd).2 j h]
      rfl

/-- A key that is the name of a field is decoded into that field. -/
theorem findField_name (names : List String) (hnd : names.Nodup) (j : Nat) (key : String)
    (h : names[j]? = some key) : findField names key = some j := by
  simp only [findField, indexWhere_beq_of_getElem key names hnd j h]

/-- A key that equals no field name up to case is skipped. -/
theorem findField_foreign (names : List String) (key : String)
    (h : ∀ n ∈ names, equalFold n key = false) : findField names key = none := by
  have h1 : indexWhere (fun n => n == key) names = none := by
    apply indexWhere_none
    intro n hn
    have : n ≠ key := by
      intro hc
      have := h n hn
      rw [hc, equalFold_self] at this
      cases this
    simpa using this
  simp only [findField, h1, indexWhere_none _ names h]

theorem lookup_eq_none_of_not_mem (n : String) (ms : List (String × JSON))
    (h : n ∉ ms.map Prod.fst) : ms.lookup n = none := by
  induction ms with
  | nil => rfl
  | cons m rest ih =>
    obtain ⟨k, v⟩ := m
    simp only [List.map_cons, List.mem_cons, not_or] at h
    have hk : (n == k) = false := by simpa using h.1
    simp only [List.lookup, hk]
    exact ih h.2

theorem mem_of_lookup (n : String) (v : JSON) (ms : List (String × JSON))
    (h : ms.lookup n = some v) : (n, v) ∈ ms := by
  induction ms with
  | nil => cases h
  | cons m rest ih =>
    obtain ⟨k, w⟩ := m
    by_cases hk : n = k
    · subst hk
      simp only [List.lookup, beq_self_eq_true, Option.some.injEq] at h
      subst h
      exact List.mem_cons_self _ _
    · have hk' : (n == k) = false := by simpa using hk
      simp only [List.lookup, hk'] at h
      exact List.mem_cons_of_mem _ (ih h)

/-- No type error arises when every member is either skipped or decoded
without error. -/
theorem decodeMembers_no_error {σ : Type} (struct : String) (names : List String)
    (set : ErrorContext → σ → Nat → JSON → σ × Option Error) (hnd : names.Nodup)
    (ms : List (String × JSON))
    (h : ∀ m ∈ ms, (∃ j, names[j]? = some m.1 ∧ ∀ c s, (set c s j m.2).2 = none)
      ∨ (∀ n ∈ names, equalFold n m.1 = false)) :
    ∀ ctx s, (decodeMembers struct names set ctx ms s).2 = none := by
  induction ms with
  | nil => intro ctx s; rfl
  | cons m rest ih =>
    intro ctx s
    obtain ⟨k, v⟩ := m
    have ih' := ih (fun m hm => h m (List.mem_cons_of_mem _ hm))
    rcases h (k, v) (List.mem_cons_self _ _) with ⟨j, hj, hset⟩ | hf
    · simp only [decodeMembers, findField_name names hnd j k hj, hset _ s, ih', firstError]
    · simp only [decodeMembers, findField_foreign names k hf, ih']

/-- The value of one field after the members of an object have been decoded:
the decoded value of the member with the name of the field, and the value held
before if there is no such member. -/
theorem decodeMembers_field {σ τ : Type} (struct : String) (names : List String)
    (set : ErrorContext → σ → Nat → JSON → σ × Option Error) (hnd : names.Nodup)
    (proj : σ → τ) (dec : ErrorContext → τ → JSON → τ) (j : Nat) (n : String)
    (hj : names[j]? = some n)
    (hother : ∀ c s i v, i ≠ j → proj (set c s i v).1 = proj s)
    (hself : ∀ c s v, proj (set c s j v).1 = dec c (proj s) v)
    (ms : List (String × JSON))
    (hkeys : ∀ m ∈ ms, m.1 ∈ names ∨ ∀ n ∈ names, equalFold n m.1 = false)
    (hnodup : ((ms.map Prod.fst).filter (fun k => names.contains k)).Nodup)
    (ctx : ErrorContext) :
    ∀ s, proj (decodeMembers struct names set ctx ms s).1
      = match ms.lookup n with
        | some v => dec { Struct := struct, FieldStack := ctx.FieldStack ++ [n] } (proj s) v
        | none => proj s := by
  have hn : n ∈ names := List.getElem?_mem hj
  have hgetD : names.getD j "" = n := by
    rw [List.getD_eq_getElem?_getD, hj]; rfl
  induction ms with
  | nil => intro s; rfl
  | cons m rest ih =>
    intro s
    obtain ⟨k, v⟩ := m
    rcases hkeys (k, v) (List.mem_cons_self _ _) with hmem | hf
    · have hc : names.contains k = true := by simpa using hmem
      simp only [List.map_cons, List.filter_cons, hc, if_true] at hnodup
      have ih' := ih (fun m hm => hkeys m (List.mem_cons_of_mem _ hm))
        (List.nodup_cons.mp hnodup).2
      have hk_rest : k ∉ rest.map Prod.fst := by
        intro hin
        exact (List.nodup_cons.mp hnodup).1 (List.mem_filter.mpr ⟨hin, hc⟩)
      obtain ⟨i, hi⟩ := List.mem_iff_getElem?.mp hmem
      simp only [decodeMembers, findField_name names hnd i k hi]
      rw [ih']
      by_cases hij : i = j
      · subst hij
        have hkn : k = n := by
          have := hi.symm.trans hj
          exact Option.some.inj this
        subst hkn
        simp only [List.lookup, beq_self_eq_true, lookup_eq_none_of_not_mem k rest hk_rest,
          hself, hgetD]
      · have hkn : (n == k) = false := by
          have : n ≠ k := by
            intro hc
            subst hc
            obtain ⟨hi1, hi2⟩ := List.getElem?_eq_some.mp hi
            obtain ⟨hj1, hj2⟩ := List.getElem?_eq_some.mp hj
            exact hij ((List.Nodup.getElem_inj_iff hnd).mp (hi2.trans hj2.symm))
          simpa using this
        simp only [List.lookup, hkn, hother _ s i v hij]
    · have hnk : n ≠ k := by
        intro hc
        have := hf n hn
        rw [hc, equalFold_self] at this
        cases this
      have hkn : (n == k) = false := by simpa using hnk
      have hc : names.contains k = false := by
        cases hcc : names.contains k with
        | false => rfl
        | true =>
          have hk : k ∈ names := by simpa using hcc
          have := hf k hk
          rw [equalFold_self] at this
          cases this
      simp only [List.map_cons, List.filter_cons, hc] at hnodup
      have ih' := ih (fun m hm => hkeys m (List.mem_cons_of_mem _ hm)) hnodup
      simp only [decodeMembers, findField_foreign names k hf, List.lookup, hkn]
      exact ih' s

/-! ## The decoder on objects of the schema -/

theorem okMembers_member (names : List String) (okValue : String → JSON → Bool)
    (ms : List (String × JSON)) (h : okMembers names okValue ms = true) :
    (∀ m ∈ ms, (m.1 ∈ names ∧ okValue m.1 m.2 = true)
        ∨ (∀ n ∈ names, equalFold n m.1 = false))
    ∧ ((ms.map Prod.fst).filter (fun k => names.contains k)).Nodup := by
  simp only [okMembers, Bool.and_eq_true, List.all_eq_true, decide_eq_true_eq] at h
  refine ⟨fun m hm => ?_, h.2⟩
  have hm' := h.1 m hm
  by_cases hc : names.contains m.1 = true
  · rw [if_pos hc] at hm'
    exact Or.inl ⟨by simpa using hc, hm'⟩
  · rw [if_neg hc] at hm'
    right
    intro n hn
    have := (List.all_eq_true.mp hm') n hn
    simpa using this

theorem okMembers_lookup (names : List String) (okValue : String → JSON → Bool)
    (ms : List (String × JSON)) (h : okMembers names okValue ms = true)
    (n : String) (hn : n ∈ names) (v : JSON) (hl : ms.lookup n = some v) :
    okValue n v = true := by
  rcases (okMembers_member names okValue ms h).1 (n, v) (mem_of_lookup n v ms hl) with h1 | h1
  · exact h1.2
  · have := h1 n hn
    rw [equalFold_self] at this
    cases this

theorem decodeString_no_error (ctx : ErrorContext) (cur : String) (v : JSON)
    (h : v.isString = true) : (decodeString ctx cur v).2 = none := by
  cases v <;> simp_all [JSON.isString, decodeString]

theorem decodeElems_no_error {α : Type} (zero : α) (elem : α → JSON → α × Option Error)
    (cur : List α) (xs : List JSON) (h : ∀ x ∈ xs, ∀ c, (elem c x).2 = none) :
    ∀ i, (decodeElems zero elem cur i xs).2 = none := by
  induction xs with
  | nil => intro i; rfl
  | cons x xs ih =>
    intro i
    simp only [decodeElems, h x (List.mem_cons_self _ _),
      ih (fun y hy => h y (List.mem_cons_of_mem _ hy)), firstError]

theorem decodeSlice_no_error {α : Type} (ctx : ErrorContext) (goType : String) (zero : α)
    (elem : α → JSON → α × Option Error) (ok : JSON → Bool) (v : JSON)
    (hv : okArray ok v = true) (helem : ∀ x, ok x = true → ∀ c, (elem c x).2 = none) :
    ∀ cur, (decodeSlice ctx goType zero elem cur v).2 = none := by
  intro cur
  cases v with
  | array xs =>
    simp only [okArray, List.all_eq_true] at hv
    simp only [decodeSlice]
    exact decodeElems_no_error zero elem _ xs (fun x hx => helem x (hv x hx)) 0
  | _ => simp [okArray] at hv

theorem decodeStruct_no_error {σ : Type} (goType struct : String) (names : List String)
    (set : ErrorContext → σ → Nat → JSON → σ × Option Error)
    (okValue : String → JSON → Bool) (hnd : names.Nodup)
    (hset : ∀ j key v, names[j]? = some key → okValue key v = true →
      ∀ c s, (set c s j v).2 = none)
    (x : JSON) (hx : okObject names okValue x = true) :
    ∀ ctx cur, (decodeStruct ctx goType struct names set cur x).2 = none := by
  intro ctx cur
  cases x with
  | object ms =>
    simp only [okObject] at hx
    simp only [decodeStruct]
    apply decodeMembers_no_error struct names set hnd
    intro m hm
    rcases (okMembers_member names okValue ms hx).1 m hm with ⟨h1, h2⟩ | h1
    · obtain ⟨j, hj⟩ := List.mem_iff_getElem?.mp h1
      exact Or.inl ⟨j, hj, hset j m.1 m.2 hj h2⟩
    · exact Or.inr h1
  | _ => simp [okObject] at hx

theorem decodeStruct_field {σ τ : Type} (goType struct : String) (names : List String)
    (set : ErrorContext → σ → Nat → JSON → σ × Option Error)
    (okValue : String → JSON → Bool) (hnd : names.Nodup)
    (proj : σ → τ) (dec : ErrorContext → τ → JSON → τ) (j : Nat) (n : String)
    (hj : names[j]? = some n)
    (hother : ∀ c s i v, i ≠ j → proj (set c s i v).1 = proj s)
    (hself : ∀ c s v, proj (set c s j v).1 = dec c (proj s) v)
    (ms : List (String × JSON)) (hx : okMembers names okValue ms = true)
    (ctx : ErrorContext) (cur : σ) :
    proj (decodeStruct ctx goType struct names set cur (.object ms)).1
      = match ms.lookup n with
        | some v => dec { Struct := struct, FieldStack := ctx.FieldStack ++ [n] } (proj cur) v
        | none => proj cur := by
  simp only [decodeStruct]
  apply decodeMembers_field struct names set hnd proj dec j n hj hother hself ms
  · intro m hm
    rcases (okMembers_member names okValue ms hx).1 m hm with h1 | h1
    · exact Or.inl h1.1
    · exact Or.inr h1
  · exact (okMembers_member names okValue ms hx).2

/-- A string field: the string given, or the empty string. -/
theorem string_field (ctx : ErrorContext) (ms : List (String × JSON)) (n : String)
    (h : ∀ v, ms.lookup n = some v → v.isString = true) :
    (match ms.lookup n with
      | some v => (decodeString ctx "" v).1
      | none => "") = specString ms n := by
  unfold specString
  cases hl : ms.lookup n with
  | none => rfl
  | some v =>
    have := h v hl
    cases v <;> simp_all [JSON.isString, decodeString]

/-- A list field: the elements given, or the nil list. -/
theorem slice_field {α : Type} (ctx : ErrorContext) (goType : String) (zero : α)
    (elem : α → JSON → α × Option Error) (ok : JSON → Bool) (spec : JSON → α)
    (ms : List (String × JSON)) (n : String)
    (h : ∀ v, ms.lookup n = some v → okArray ok v = true)
    (helem : ∀ x, ok x = true → (elem zero x).1 = spec x) :
    (match ms.lookup n with
      | some v => (decodeSlice ctx goType zero elem none v).1
      | none => none) = specSlice spec ms n := by
  unfold specSlice
  cases hl : ms.lookup n with
  | none => rfl
  | some v =>
    have hv := h v hl
    cases v with
    | array xs =>
      simp only [okArray, List.all_eq_true] at hv
      simp only [decodeSlice, Slice.elems, Option.getD, decodeElems_nil]
      congr 1
      exact List.map_congr_left (fun x hx => helem x (hv x hx))
    | _ => simp [okArray] at hv

theorem decodeString_text (ctx : ErrorContext) (x : JSON) (h : x.isString = true) :
    (decodeString ctx "" x).1 = specText x := by
  cases x <;> simp_all [JSON.isString, decodeString, specText]

/-! ### `GeoCode` -/

theorem GeoCode_no_error (x : JSON) (hx : isGeoCodeObject x = true) (ctx : ErrorContext)
    (cur : GeoCode) : (decodeGeoCode ctx cur x).2 = none := by
  apply decodeStruct_no_error "main.GeoCode" "GeoCode" GeoCode.names GeoCode.set GeoCode.okValue (by decide) _ x hx
  intro j key v hj hv c s
  rcases j with _ | j
  · have hk : key = "valueName" := by simpa [GeoCode.names] using hj.symm
    subst hk
    have hv : GeoCode.okValue "valueName" v = true := hv
    simp only [GeoCode.okValue, String.reduceEq, if_true, if_false] at hv
    exact decodeString_no_error c _ v hv
  · simp [GeoCode.names] at hj

theorem GeoCode_spec (x : JSON) (hx : isGeoCodeObject x = true) (ctx : ErrorContext) :
    (decodeGeoCode ctx GeoCode.zero x).1 = specGeoCode x := by
  cases x with
  | object ms =>
    have hm : okMembers GeoCode.names GeoCode.okValue ms = true := hx
    apply GeoCode.ext
    · have h := decodeStruct_field "main.GeoCode" "GeoCode" GeoCode.names GeoCode.set GeoCode.okValue
        (by decide) GeoCode.ValueName (fun c t v => (decodeString c t v).1)
        0 "valueName" rfl
        (by intro c s i v hi
            rcases i with _ | i <;> first | exact absurd rfl hi | rfl)
        (fun _ _ _ => rfl) ms hm ctx GeoCode.zero
      exact h.trans (string_field _ ms "valueName" (fun v hl => by
          have h1 := okMembers_lookup _ _ ms hm "valueName" (by decide) v hl
          simpa only [GeoCode.okValue, String.reduceEq, if_true, if_false] using h1))
  | _ => simp [isGeoCodeObject, okObject] at hx

/-! ### `Parameter` -/

theorem Parameter_no_error (x : JSON) (hx : isParameterObject x = true) (ctx : ErrorContext)
    (cur : Parameter) : (decodeParameter ctx cur x).2 = none := by
  apply decodeStruct_no_error "main.Parameter" "Parameter" Parameter.names Parameter.set Parameter.okValue (by decide) _ x hx
  intro j key v hj hv c s
  rcases j with _ | _ | j
  · have hk : key = "valueName" := by simpa [Parameter.names] using hj.symm
    subst hk
    have hv : Parameter.okValue "valueName" v = true := hv
    simp only [Parameter.okValue, String.reduceEq, if_true, if_false] at hv
    exact decodeString_no_error c _ v hv
  · have hk : key = "value" := by simpa [Parameter.names] using hj.symm
    subst hk
    have hv : Parameter.okValue "value" v = true := hv
    simp only [Parameter.okValue, String.reduceEq, if_true, if_false] at hv
    exact decodeString_no_error c _ v hv
  · simp [Parameter.names] at hj

theorem Parameter_spec (x : JSON) (hx : isParameterObject x = true) (ctx : ErrorContext) :
    (decodeParameter ctx Parameter.zero x).1 = specParameter x := by
  cases x with
  | object ms =>
    have hm : okMembers Parameter.names Parameter.okValue ms = true := hx
    apply Parameter.ext
    · have h := decodeStruct_field "main.Parameter" "Parameter" Parameter.names Parameter.set Parameter.okValue
        (by decide) Parameter.ValueName (fun c t v => (decodeString c t v).1)
        0 "valueName" rfl
        (by intro c s i v hi
            rcases i with _ | _ | i <;> first | exact absurd rfl hi | rfl)
        (fun _ _ _ => rfl) ms hm ctx Parameter.zero
      exact h.trans (string_field _ ms "valueName" (fun v hl => by
          have h1 := okMembers_lookup _ _ ms hm "valueName" (by decide) v hl
          simpa only [Parameter.okValue, String.reduceEq, if_true, if_false] using h1))
    · have h := decodeStruct_field "main.Parameter" "Parameter" Parameter.names Parameter.set Parameter.okValue
        (by decide) Parameter.Value (fun c t v => (decodeString c t v).1)
        1 "value" rfl
        (by intro c s i v hi
            rcases i with _ | _ | i <;> first | exact absurd rfl hi | rfl)
        (fun _ _ _ => rfl) ms hm ctx Parameter.zero
      exact h.trans (string_field _ ms "value" (fun v hl => by
          have h1 := okMembers_lookup _ _ ms hm "value" (by decide) v hl
          simpa only [Parameter.okValue, String.reduceEq, if_true, if_false] using h1))
  | _ => simp [isParameterObject, okObject] at hx

/-! ### `Area` -/

theorem Area_no_error (x : JSON) (hx : isAreaObject x = true) (ctx : ErrorContext)
    (cur : Area) : (decodeArea ctx cur x).2 = none := by
  apply decodeStruct_no_error "main.Area" "Area" Area.names Area.set Area.okValue (by decide) _ x hx
  intro j key v hj hv c s
  rcases j with _ | _ | j
  · have hk : key = "areaDesc" := by simpa [Area.names] using hj.symm
    subst hk
    have hv : Area.okValue "areaDesc" v = true := hv
    simp only [Area.okValue, String.reduceEq, if_true, if_false] at hv
    exact decodeString_no_error c _ v hv
  · have hk : key = "geocode" := by simpa [Area.names] using hj.symm
    subst hk
    have hv : Area.okValue "geocode" v = true := hv
    simp only [Area.okValue, String.reduceEq, if_true, if_false] at hv
    exact decodeSlice_no_error c "[]main.GeoCode" GeoCode.zero (decodeGeoCode c) isGeoCodeObject v hv
      (fun x hx e => GeoCode_no_error x hx c e) _
  · simp [Area.names] at hj

theorem Area_spec (x : JSON) (hx : isAreaObject x = true) (ctx : ErrorContext) :
    (decodeArea ctx Area.zero x).1 = specArea x := by
  cases x with
  | object ms =>
    have hm : okMembers Area.names Area.okValue ms = true := hx
    apply Area.ext
    · have h := decodeStruct_field "main.Area" "Area" Area.names Area.set Area.okValue
        (by decide) Area.AreaDesc (fun c t v => (decodeString c t v).1)
        0 "areaDesc" rfl
        (by intro c s i v hi
            rcases i with _ | _ | i <;> first | exact absurd rfl hi | rfl)
        (fun _ _ _ => rfl) ms hm ctx Area.zero
      exact h.trans (string_field _ ms "areaDesc" (fun v hl => by
          have h1 := okMembers_lookup _ _ ms hm "areaDesc" (by decide) v hl
          simpa only [Area.okValue, String.reduceEq, if_true, if_false] using h1))
    · have h := decodeStruct_field "main.Area" "Area" Area.names Area.set Area.okValue
        (by decide) Area.Geocode (fun c t v => (decodeSlice c "[]main.GeoCode" GeoCode.zero (decodeGeoCode c) t v).1)
        1 "geocode" rfl
        (by intro c s i v hi
            rcases i with _ | _ | i <;> first | exact absurd rfl hi | rfl)
        (fun _ _ _ => rfl) ms hm ctx Area.zero
      exact h.trans (slice_field _ "[]main.GeoCode" GeoCode.zero _ isGeoCodeObject specGeoCode ms "geocode"
        (fun v hl => by
          have h1 := okMembers_lookup _ _ ms hm "geocode" (by decide) v hl
          simpa only [Area.okValue, String.reduceEq, if_true, if_false] using h1)
        (fun x hx => GeoCode_spec x hx _))
  | _ => simp [isAreaObject, okObject] at hx

/-! ### `Info` -/

theorem Info_no_error (x : JSON) (hx : isInfoObject x = true) (ctx : ErrorContext)
    (cur : Info) : (decodeInfo ctx cur x).2 = none := by
  apply decodeStruct_no_error "main.Info" "Info" Info.names Info.set Info.okValue (by decide) _ x hx
  intro j key v hj hv c s
  rcases j with _ | _ | _ | _ | _ | _ | _ | _ | _ | j
  · have hk : key = "severity" := by simpa [Info.names] using hj.symm
    subst hk
    have hv : Info.okValue "severity" v = true := hv
    simp only [Info.okValue, String.reduceEq, if_true, if_false] at hv
    exact decodeString_no_error c _ v hv
  · have hk : key = "urgency" := by simpa [Info.names] using hj.symm
    subst hk
    have hv : Info.okValue "urgency" v = true := hv
    simp only [Info.okValue, String.reduceEq, if_true, if_false] at hv
    exact decodeString_no_error c _ v hv
  · have hk : key = "description" := by simpa [Info.names] using hj.symm
    subst hk
    have hv : Info.okValue "description" v = true := hv
    simp only [Info.okValue, String.reduceEq, if_true, if_false] at hv
    exact decodeString_no_error c _ v hv
  · have hk : key = "headline" := by simpa [Info.names] using hj.symm
    subst hk
    have hv : Info.okValue "headline" v = true := hv
    simp only [Info.okValue, String.reduceEq, if_true, if_false] at hv
    exact decodeString_no_error c _ v hv
  · have hk : key = "event" := by simpa [Info.names] using hj.symm
    subst hk
    have hv : Info.okValue "event" v = true := hv
    simp only [Info.okValue, String.reduceEq, if_true, if_false] at hv
    exact decodeString_no_error c _ v hv
  · have hk : key = "certainty" := by simpa [Info.names] using hj.symm
    subst hk
    have hv : Info.okValue "certainty" v = true := hv
    simp only [Info.okValue, String.reduceEq, if_true, if_false] at hv
    exact decodeString_no_error c _ v hv
  · have hk : key = "category" := by simpa [Info.names] using hj.symm
    subst hk
    have hv : Info.okValue "category" v = true := hv
    simp only [Info.okValue, String.reduceEq, if_true, if_false] at hv
    exact decodeSlice_no_error c "[]string" "" (decodeString c) JSON.isString v hv
      (fun x hx e => decodeString_no_error c e x hx) _
  · have hk : key = "parameter" := by simpa [Info.names] using hj.symm
    subst hk
    have hv : Info.okValue "parameter" v = true := hv
    simp only [Info.okValue, String.reduceEq, if_true, if_false] at hv
    exact decodeSlice_no_error c "[]main.Parameter" Parameter.zero (decodeParameter c) isParameterObject v hv
      (fun x hx e => Parameter_no_error x hx c e) _
  · have hk : key = "area" := by simpa [Info.names] using hj.symm
    subst hk
    have hv : Info.okValue "area" v = true := hv
    simp only [Info.okValue, String.reduceEq, if_true, if_false] at hv
    exact decodeSlice_no_error c "[]main.Area" Area.zero (decodeArea c) isAreaObject v hv
      (fun x hx e => Area_no_error x hx c e) _
  · simp [Info.names] at hj

theorem Info_spec (x : JSON) (hx : isInfoObject x = true) (ctx : ErrorContext) :
    (decodeInfo ctx Info.zero x).1 = specInfo x := by
  cases x with
  | object ms =>
    have hm : okMembers Info.names Info.okValue ms = true := hx
    apply Info.ext
    · have h := decodeStruct_field "main.Info" "Info" Info.names Info.set Info.okValue
        (by decide) Info.Severity (fun c t v => (decodeString c t v).1)
        0 "severity" rfl
        (by intro c s i v hi
            rcases i with _ | _ | _ | _ | _ | _ | _ | _ | _ | i <;> first | exact absurd rfl hi | rfl)
        (fun _ _ _ => rfl) ms hm ctx Info.zero
      exact h.trans (string_field _ ms "severity" (fun v hl => by
          have h1 := okMembers_lookup _ _ ms hm "severity" (by decide) v hl
          simpa only [Info.okValue, String.reduceEq, if_true, if_false] using h1))
    · have h := decodeStruct_field "main.Info" "Info" Info.names Info.set Info.okValue
        (by decide) Info.Urgency (fun c t v => (decodeString c t v).1)
        1 "urgency" rfl
        (by intro c s i v hi
            rcases i with _ | _ | _ | _ | _ | _ | _ | _ | _ | i <;> first | exact absurd rfl hi | rfl)
        (fun _ _ _ => rfl) ms hm ctx Info.zero
      exact h.trans (string_field _ ms "urgency" (fun v hl => by
          have h1 := okMembers_lookup _ _ ms hm "urgency" (by decide) v hl
          simpa only [Info.okValue, String.reduceEq, if_true, if_false] using h1))
    · have h := decodeStruct_field "main.Info" "Info" Info.names Info.set Info.okValue
        (by decide) Info.Description (fun c t v => (decodeString c t v).1)
        2 "description" rfl
        (by intro c s i v hi
            rcases i with _ | _ | _ | _ | _ | _ | _ | _ | _ | i <;> first | exact absurd rfl hi | rfl)
        (fun _ _ _ => rfl) ms hm ctx Info.zero
      exact h.trans (string_field _ ms "description" (fun v hl => by
          have h1 := okMembers_lookup _ _ ms hm "description" (by decide) v hl
          simpa only [Info.okValue, String.reduceEq, if_true, if_false] using h1))
    · have h := decodeStruct_field "main.Info" "Info" Info.names Info.set Info.okValue
        (by decide) Info.Headline (fun c t v => (decodeString c t v).1)
        3 "headline" rfl
        (by intro c s i v hi
            rcases i with _ | _ | _ | _ | _ | _ | _ | _ | _ | i <;> first | exact absurd rfl hi | rfl)
        (fun _ _ _ => rfl) ms hm ctx Info.zero
      exact h.trans (string_field _ ms "headline" (fun v hl => by
          have h1 := okMembers_lookup _ _ ms hm "headline" (by decide) v hl
          simpa only [Info.okValue, String.reduceEq, if_true, if_false] using h1))
    · have h := decodeStruct_field "main.Info" "Info" Info.names Info.set Info.okValue
        (by decide) Info.Event (fun c t v => (decodeString c t v).1)
        4 "event" rfl
        (by intro c s i v hi
            rcases i with _ | _ | _ | _ | _ | _ | _ | _ | _ | i <;> first | exact absurd rfl hi | rfl)
        (fun _ _ _ => rfl) ms hm ctx Info.zero
      exact h.trans (string_field _ ms "event" (fun v hl => by
          have h1 := okMembers_lookup _ _ ms hm "event" (by decide) v hl
          simpa only [Info.okValue, String.reduceEq, if_true, if_false] using h1))
    · have h := decodeStruct_field "main.Info" "Info" Info.names Info.set Info.okValue
        (by decide) Info.Certainty (fun c t v => (decodeString c t v).1)
        5 "certainty" rfl
        (by intro c s i v hi
            rcases i with _ | _ | _ | _ | _ | _ | _ | _ | _ | i <;> first | exact absurd rfl hi | rfl)
        (fun _ _ _ => rfl) ms hm ctx Info.zero
      exact h.trans (string_field _ ms "certainty" (fun v hl => by
          have h1 := okMembers_lookup _ _ ms hm "certainty" (by decide) v hl
          simpa only [Info.okValue, String.reduceEq, if_true, if_false] using h1))
    · have h := decodeStruct_field "main.Info" "Info" Info.names Info.set Info.okValue
        (by decide) Info.Category (fun c t v => (decodeSlice c "[]string" "" (decodeString c) t v).1)
        6 "category" rfl
        (by intro c s i v hi
            rcases i with _ | _ | _ | _ | _ | _ | _ | _ | _ | i <;> first | exact absurd rfl hi | rfl)
        (fun _ _ _ => rfl) ms hm ctx Info.zero
      exact h.trans (slice_field _ "[]string" "" _ JSON.isString specText ms "category"
        (fun v hl => by
          have h1 := okMembers_lookup _ _ ms hm "category" (by decide) v hl
          simpa only [Info.okValue, String.reduceEq, if_true, if_false] using h1)
        (fun x hx => decodeString_text _ x hx))
    · have h := decodeStruct_field "main.Info" "Info" Info.names Info.set Info.okValue
        (by decide) Info.Parameter (fun c t v => (decodeSlice c "[]main.Parameter" Parameter.zero (decodeParameter c) t v).1)
        7 "parameter" rfl
        (by intro c s i v hi
            rcases i with _ | _ | _ | _ | _ | _ | _ | _ | _ | i <;> first | exact absurd rfl hi | rfl)
        (fun _ _ _ => rfl) ms hm ctx Info.zero
      exact h.trans (slice_field _ "[]main.Parameter" Parameter.zero _ isParameterObject specParameter ms "parameter"
        (fun v hl => by
          have h1 := okMembers_lookup _ _ ms hm "parameter" (by decide) v hl
          simpa only [Info.okValue, String.reduceEq, if_true, if_false] using h1)
        (fun x hx => Parameter_spec x hx _))
    · have h := decodeStruct_field "main.Info" "Info" Info.names Info.set Info.okValue
        (by decide) Info.Area (fun c t v => (decodeSlice c "[]main.Area" Area.zero (decodeArea c) t v).1)
        8 "area" rfl
        (by intro c s i v hi
            rcases i with _ | _ | _ | _ | _ | _ | _ | _ | _ | i <;> first | exact absurd rfl hi | rfl)
        (fun _ _ _ => rfl) ms hm ctx Info.zero
      exact h.trans (slice_field _ "[]main.Area" Area.zero _ isAreaObject specArea ms "area"
        (fun v hl => by
          have h1 := okMembers_lookup _ _ ms hm "area" (by decide) v hl
          simpa only [Info.okValue, String.reduceEq, if_true, if_false] using h1)
        (fun x hx => Area_spec x hx _))
  | _ => simp [isInfoObject, okObject] at hx

/-! ### `Warnmeldung` -/

theorem Warnmeldung_no_error (x : JSON) (hx : isWarnmeldungObject x = true) (ctx : ErrorContext)
    (cur : Warnmeldung) : (decodeWarnmeldung ctx cur x).2 = none := by
  apply decodeStruct_no_error "main.Warnmeldung" "Warnmeldung" Warnmeldung.names Warnmeldung.set Warnmeldung.okValue (by decide) _ x hx
  intro j key v hj hv c s
  rcases j with _ | _ | _ | _ | _ | _ | _ | _ | j
  · have hk : key = "identifier" := by simpa [Warnmeldung.names] using hj.symm
    subst hk
    have hv : Warnmeldung.okValue "identifier" v = true := hv
    simp only [Warnmeldung.okValue, String.reduceEq, if_true, if_false] at hv
    exact decodeString_no_error c _ v hv
  · have hk : key = "msgType" := by simpa [Warnmeldung.names] using hj.symm
    subst hk
    have hv : Warnmeldung.okValue "msgType" v = true := hv
    simp only [Warnmeldung.okValue, String.reduceEq, if_true, if_false] at hv
    exact decodeString_no_error c _ v hv
  · have hk : key = "sender" := by simpa [Warnmeldung.names] using hj.symm
    subst hk
    have hv : Warnmeldung.okValue "sender" v = true := hv
    simp only [Warnmeldung.okValue, String.reduceEq, if_true, if_false] at hv
    exact decodeString_no_error c _ v hv
  · have hk : key = "scope" := by simpa [Warnmeldung.names] using hj.symm
    subst hk
    have hv : Warnmeldung.okValue "scope" v = true := hv
    simp only [Warnmeldung.okValue, String.reduceEq, if_true, if_false] at hv
    exact decodeString_no_error c _ v hv
  · have hk : key = "sent" := by simpa [Warnmeldung.names] using hj.symm
    subst hk
    have hv : Warnmeldung.okValue "sent" v = true := hv
    simp only [Warnmeldung.okValue, String.reduceEq, if_true, if_false] at hv
    exact decodeString_no_error c _ v hv
  · have hk : key = "status" := by simpa [Warnmeldung.names] using hj.symm
    subst hk
    have hv : Warnmeldung.okValue "status" v = true := hv
    simp only [Warnmeldung.okValue, String.reduceEq, if_true, if_false] at hv
    exact decodeString_no_error c _ v hv
  · have hk : key = "code" := by simpa [Warnmeldung.names] using hj.symm
    subst hk
    have hv : Warnmeldung.okValue "code" v = true := hv
    simp only [Warnmeldung.okValue, String.reduceEq, if_true, if_false] at hv
    exact decodeSlice_no_error c "[]string" "" (decodeString c) JSON.isString v hv
      (fun x hx e => decodeString_no_error c e x hx) _
  · have hk : key = "info" := by simpa [Warnmeldung.names] using hj.symm
    subst hk
    have hv : Warnmeldung.okValue "info" v = true := hv
    simp only [Warnmeldung.okValue, String.reduceEq, if_true, if_false] at hv
    exact decodeSlice_no_error c "[]main.Info" Info.zero (decodeInfo c) isInfoObject v hv
      (fun x hx e => Info_no_error x hx c e) _
  · simp [Warnmeldung.names] at hj

theorem Warnmeldung_spec (x : JSON) (hx : isWarnmeldungObject x = true) (ctx : ErrorContext) :
    (decodeWarnmeldung ctx Warnmeldung.zero x).1 = specWarnmeldung x := by
  cases x with
  | object ms =>
    have hm : okMembers Warnmeldung.names Warnmeldung.okValue ms = true := hx
    apply Warnmeldung.ext
    · have h := decodeStruct_field "main.Warnmeldung" "Warnmeldung" Warnmeldung.names Warnmeldung.set Warnmeldung.okValue
        (by decide) Warnmeldung.Identifier (fun c t v => (decodeString c t v).1)
        0 "identifier" rfl
        (by intro c s i v hi
            rcases i with _ | _ | _ | _ | _ | _ | _ | _ | i <;> first | exact absurd rfl hi | rfl)
        (fun _ _ _ => rfl) ms hm ctx Warnmeldung.zero
      exact h.trans (string_field _ ms "identifier" (fun v hl => by
          have h1 := okMembers_lookup _ _ ms hm "identifier" (by decide) v hl
          simpa only [Warnmeldung.okValue, String.reduceEq, if_true, if_false] using h1))
    · have h := decodeStruct_field "main.Warnmeldung" "Warnmeldung" Warnmeldung.names Warnmeldung.set Warnmeldung.okValue
        (by decide) Warnmeldung.MsgType (fun c t v => (decodeString c t v).1)
        1 "msgType" rfl
        (by intro c s i v hi
            rcases i with _ | _ | _ | _ | _ | _ | _ | _ | i <;> first | exact absurd rfl hi | rfl)
        (fun _ _ _ => rfl) ms hm ctx Warnmeldung.zero
      exact h.trans (string_field _ ms "msgType" (fun v hl => by
          have h1 := okMembers_lookup _ _ ms hm "msgType" (by decide) v hl
          simpa only [Warnmeldung.okValue, String.reduceEq, if_true, if_false] using h1))
    · have h := decodeStruct_field "main.Warnmeldung" "Warnmeldung" Warnmeldung.names Warnmeldung.set Warnmeldung.okValue
        (by decide) Warnmeldung.Sender (fun c t v => (decodeString c t v).1)
        2 "sender" rfl
        (by intro c s i v hi
            rcases i with _ | _ | _ | _ | _ | _ | _ | _ | i <;> first | exact absurd rfl hi | rfl)
        (fun _ _ _ => rfl) ms hm ctx Warnmeldung.zero
      exact h.trans (string_field _ ms "sender" (fun v hl => by
          have h1 := okMembers_lookup _ _ ms hm "sender" (by decide) v hl
          simpa only [Warnmeldung.okValue, String.reduceEq, if_true, if_false] using h1))
    · have h := decodeStruct_field "main.Warnmeldung" "Warnmeldung" Warnmeldung.names Warnmeldung.set Warnmeldung.okValue
        (by decide) Warnmeldung.Scope (fun c t v => (decodeString c t v).1)
        3 "scope" rfl
        (by intro c s i v hi
            rcases i with _ | _ | _ | _ | _ | _ | _ | _ | i <;> first | exact absurd rfl hi | rfl)
        (fun _ _ _ => rfl) ms hm ctx Warnmeldung.zero
      exact h.trans (string_field _ ms "scope" (fun v hl => by
          have h1 := okMembers_lookup _ _ ms hm "scope" (by decide) v hl
          simpa only [Warnmeldung.okValue, String.reduceEq, if_true, if_false] using h1))
    · have h := decodeStruct_field "main.Warnmeldung" "Warnmeldung" Warnmeldung.names Warnmeldung.set Warnmeldung.okValue
        (by decide) Warnmeldung.Sent (fun c t v => (decodeString c t v).1)
        4 "sent" rfl
        (by intro c s i v hi
            rcases i with _ | _ | _ | _ | _ | _ | _ | _ | i <;> first | exact absurd rfl hi | rfl)
        (fun _ _ _ => rfl) ms hm ctx Warnmeldung.zero
      exact h.trans (string_field _ ms "sent" (fun v hl => by
          have h1 := okMembers_lookup _ _ ms hm "sent" (by decide) v hl
          simpa only [Warnmeldung.okValue, String.reduceEq, if_true, if_false] using h1))
    · have h := decodeStruct_field "main.Warnmeldung" "Warnmeldung" Warnmeldung.names Warnmeldung.set Warnmeldung.okValue
        (by decide) Warnmeldung.Status (fun c t v => (decodeString c t v).1)
        5 "status" rfl
        (by intro c s i v hi
            rcases i with _ | _ | _ | _ | _ | _ | _ | _ | i <;> first | exact absurd rfl hi | rfl)
        (fun _ _ _ => rfl) ms hm ctx Warnmeldung.zero
      exact h.trans (string_field _ ms "status" (fun v hl => by
          have h1 := okMembers_lookup _ _ ms hm "status" (by decide) v hl
          simpa only [Warnmeldung.okValue, String.reduceEq, if_true, if_false] using h1))
    · have h := decodeStruct_field "main.Warnmeldung" "Warnmeldung" Warnmeldung.names Warnmeldung.set Warnmeldung.okValue
        (by decide) Warnmeldung.Code (fun c t v => (decodeSlice c "[]string" "" (decodeString c) t v).1)
        6 "code" rfl
        (by intro c s i v hi
            rcases i with _ | _ | _ | _ | _ | _ | _ | _ | i <;> first | exact absurd rfl hi | rfl)
        (fun _ _ _ => rfl) ms hm ctx Warnmeldung.zero
      exact h.trans (slice_field _ "[]string" "" _ JSON.isString specText ms "code"
        (fun v hl => by
          have h1 := okMembers_lookup _ _ ms hm "code" (by decide) v hl
          simpa only [Warnmeldung.okValue, String.reduceEq, if_true, if_false] using h1)
        (fun x hx => decodeString_text _ x hx))
    · have h := decodeStruct_field "main.Warnmeldung" "Warnmeldung" Warnmeldung.names Warnmeldung.set Warnmeldung.okValue
        (by decide) Warnmeldung.Informationen (fun c t v => (decodeSlice c "[]main.Info" Info.zero (decodeInfo c) t v).1)
        7 "info" rfl
        (by intro c s i v hi
            rcases i with _ | _ | _ | _ | _ | _ | _ | _ | i <;> first | exact absurd rfl hi | rfl)
        (fun _ _ _ => rfl) ms hm ctx Warnmeldung.zero
      exact h.trans (slice_field _ "[]main.Info" Info.zero _ isInfoObject specInfo ms "info"
        (fun v hl => by
          have h1 := okMembers_lookup _ _ ms hm "info" (by decide) v hl
          simpa only [Warnmeldung.okValue, String.reduceEq, if_true, if_false] using h1)
        (fun x hx => Info_spec x hx _))
  | _ => simp [isWarnmeldungObject, okObject] at hx

/-! ## Schema tolerance -/

/-- C10 (as amended): for every JSON array of warning objects (every member
named like a field of the schema has a value of the shape of that field, no
field is given twice, and the name of every other member equals no field name
even up to letter case, such as `polygon`), in which an object may omit `code`,
`info` or any other field of the schema, decoding into `[]Warnmeldung`
succeeds without error and yields at each position the warning the object
stands for: a list field that is omitted is the empty (nil) list, a string
field that is omitted is the empty string, a field that is given has the value
given, and the extra members are ignored. -/
theorem Unmarshal_schema_tolerance (W : World) (data : List Byte) (xs : List JSON)
    (hp : W.parseJSON data = .ok (.array xs))
    (hxs : ∀ x ∈ xs, isWarnmeldungObject x = true) :
    Unmarshal W data none = (some (xs.map specWarnmeldung), none)
    ∧ ∀ (i : Nat) (ms : List (String × JSON)), xs[i]? = some (.object ms) →
        ∃ w, (Unmarshal W data none).1.elems[i]? = some w
          ∧ (ms.lookup "code" = none → w.Code = none)
          ∧ (ms.lookup "info" = none → w.Informationen = none)
          ∧ (ms.lookup "identifier" = none → w.Identifier = "")
          ∧ (ms.lookup "msgType" = none → w.MsgType = "")
          ∧ (ms.lookup "sender" = none → w.Sender = "")
          ∧ (ms.lookup "scope" = none → w.Scope = "")
          ∧ (ms.lookup "sent" = none → w.Sent = "")
          ∧ (ms.lookup "status" = none → w.Status = "")
          ∧ (∀ s, ms.lookup "identifier" = some (.string s) → w.Identifier = s)
          ∧ (∀ s, ms.lookup "msgType" = some (.string s) → w.MsgType = s)
          ∧ (∀ s, ms.lookup "sender" = some (.string s) → w.Sender = s)
          ∧ (∀ s, ms.lookup "scope" = some (.string s) → w.Scope = s)
          ∧ (∀ s, ms.lookup "sent" = some (.string s) → w.Sent = s)
          ∧ (∀ s, ms.lookup "status" = some (.string s) → w.Status = s)
          ∧ (∀ cs, ms.lookup "code" = some (.array cs) → w.Code = some (cs.map specText))
          ∧ (∀ is, ms.lookup "info" = some (.array is) →
              w.Informationen = some (is.map specInfo)) := by
  have hU : Unmarshal W data none = (some (xs.map specWarnmeldung), none) := by
    simp only [Unmarshal, hp, decodeSlice, Slice.elems, Option.getD]
    rw [decodeElems_no_error Warnmeldung.zero (decodeWarnmeldung ErrorContext.root) [] xs
      (fun x hx c => Warnmeldung_no_error x (hxs x hx) _ c) 0, decodeElems_nil]
    congr 2
    exact List.map_congr_left (fun x hx => Warnmeldung_spec x (hxs x hx) _)
  refine ⟨hU, fun i ms hi => ⟨specWarnmeldung (.object ms), ?_, ?_⟩⟩
  · rw [hU]
    simp only [Slice.elems, Option.getD, List.getElem?_map, hi, Option.map_some']
  · simp only [specWarnmeldung, specString, specSlice]
    refine ⟨?_, ?_, ?_, ?_, ?_, ?_, ?_, ?_, ?_, ?_, ?_, ?_, ?_, ?_, ?_, ?_⟩ <;>
      first
        | (intro h; simp only [h])
        | (intro s h; simp only [h])

/-- Witness of C10: the first object gives the identifier and the extra member
`polygon` only, the second omits `code` and `info`, the third has a nested
`info` block with extra members. -/
theorem Unmarshal_schema_tolerance_witness :
    sparseWorld.parseJSON sparseText = .ok sparseDoc
    ∧ (∀ x ∈ sparseDoc.elements, isWarnmeldungObject x = true)
    ∧ Unmarshal sparseWorld sparseText none
      = (some [{ Warnmeldung.zero with Identifier := "A1" },
          { meldungB2 with Code := none, Informationen := none }, meldungC3], none) :=
  ⟨rfl, by decide,
    (Unmarshal_schema_tolerance sparseWorld sparseText sparseDoc.elements rfl (by decide)).1⟩

/-- Counterexample to C10 as stated: an object that omits `code` and carries the
extra member `Code` is not decoded without error, because a key is matched to
a field up to case; likewise the extra member `IDENTIFIER` is not ignored but
replaces the identifier given; and when `info` is given twice the result is
neither of the two values given but the second decoded over the first. -/
theorem Unmarshal_matches_up_to_case :
    (capitalWorld.parseJSON capitalText = .ok capitalDoc
      ∧ (Unmarshal capitalWorld capitalText none).2
          = some (.unmarshalType "number" "[]string" "Warnmeldung" "code")
      ∧ GetMeldungen capitalWorld
          = (none, some (.unmarshalType "number" "[]string" "Warnmeldung" "code")))
    ∧ (shoutWorld.parseJSON shoutText = .ok shoutDoc
      ∧ Unmarshal shoutWorld shoutText none
          = (some [{ Warnmeldung.zero with Identifier := "B2" }], none))
    ∧ (twiceWorld.parseJSON twiceText = .ok twiceDoc
      ∧ Unmarshal twiceWorld twiceText none
          = (some [{ Warnmeldung.zero with
              Informationen := some [{ Info.zero with Severity := "Minor", Urgency := "U" }] }],
            none)) :=
  ⟨⟨rfl, by decide, by decide⟩, ⟨rfl, by decide⟩, ⟨rfl, by decide⟩⟩

end Warnmeldungen
